/-
Verification of the OpenWebClaw agent runtime against its specification.

The development shallowly embeds the agent worker (`src/agent-worker.ts` and the
worker variant embedded in `src/App.tsx`), the tasks-page cron helpers, and the
sparkline generator.  Effectful code is modelled by explicit oracles: a provider
round trip is a function from the call number to `Except String reply` (the
`error` case models a thrown network error or a non-success HTTP response whose
composed message is the carried string), tool back-ends (shell, storage, fetch,
script evaluation) are fields of a `ToolEnv` record returning `Except`, and the
worker's `postMessage` traffic is reified as a list of `Event`s together with
the list of tool dispatches and the number of provider calls.

JavaScript numbers that the relevant code only ever uses as integers are
modelled as `Nat`/`Int` (with `Option` where `NaN`/absence is observable);
the numeric time-series fed to the sparkline is modelled over `ℚ`.  JSON
parsing of external network payloads is lifted into the oracle reply
structures (the reply carries the parse outcome), matching how `fetch`
itself is abstracted.  Absent tool-input fields are modelled as `Option`
with the empty string as the value handed to back-ends where the source
would pass `undefined` through.
-/
import Mathlib

set_option maxRecDepth 4000

-- ---------------------------------------------------------------------------
-- Small JS-flavoured helpers
-- ---------------------------------------------------------------------------

/-- Preview used by the worker logs: `s.length > n ? s.slice(0, n) + '…' : s`. -/
def preview (n : Nat) (s : String) : String :=
  if n < s.length then s.take n ++ "…" else s

/-- JS `x || d` for an optional number (`0` and absence are falsy). -/
def jsOrNat (o : Option Nat) (d : Nat) : Nat :=
  match o with
  | some 0 => d
  | some t => t
  | none => d

/-- JS `x || d` for an optional string (`''` and absence are falsy). -/
def jsOrStr (o : Option String) (d : String) : String :=
  match o with
  | some s => if s = "" then d else s
  | none => d

/-- JS `x || null` for an optional string (empty string collapses to null). -/
def jsOrNull (o : Option String) : Option String :=
  match o with
  | some s => if s = "" then none else some s
  | none => none

/-- JS array indexing `l[i]`: out-of-range (including negative) is `undefined`. -/
def jsIdx (l : List String) (i : Int) : Option String :=
  if i < 0 then none else l.get? i.toNat

/-- `String.prototype.padStart(n, c)`. -/
def padStart (s : String) (n : Nat) (c : Char) : String :=
  if s.length < n then ⟨List.replicate (n - s.length) c⟩ ++ s else s

/-- JS `parseInt(s, 10)`: optional leading whitespace and sign, then a
non-empty run of decimal digits; otherwise `NaN` (modelled as `none`). -/
def jsParseInt (s : String) : Option Int :=
  let l := s.data.dropWhile (·.isWhitespace)
  let signAndRest : Int × List Char :=
    match l with
    | '-' :: r => (-1, r)
    | '+' :: r => (1, r)
    | _ => (1, l)
  let ds := signAndRest.2.takeWhile (·.isDigit)
  if ds = [] then none
  else some (signAndRest.1 * (ds.foldl (fun a c => a * 10 + (c.toNat - 48)) 0 : Nat))

/-- Render a JS number that may be `NaN`. -/
def jsNumStr : Option Int → String
  | some i => toString i
  | none => "NaN"

/-- JS `x >= k` (false when `x` is `NaN`). -/
def jsGE (o : Option Int) (k : Int) : Bool :=
  match o with
  | some v => decide (k ≤ v)
  | none => false

/-- JS `x > k` (false when `x` is `NaN`). -/
def jsGT (o : Option Int) (k : Int) : Bool :=
  match o with
  | some v => decide (k < v)
  | none => false

/-- Find the first occurrence of `pat` in `l` and return the remainder after
it; `none` when `pat` does not occur. -/
def dropThrough (pat : List Char) : List Char → Option (List Char)
  | [] => none
  | c :: cs =>
    if List.isPrefixOf pat (c :: cs) then some ((c :: cs).drop pat.length)
    else dropThrough pat cs

/-- Substring test used for `String.prototype.includes` with a non-empty
pattern. -/
def strIncludes (s pat : String) : Bool :=
  (dropThrough pat.data s.data).isSome

/-- `String.prototype.startsWith`. -/
def strStartsWith (s pat : String) : Bool :=
  List.isPrefixOf pat.data s.data

/-- `String.prototype.includes` for a single character. -/
def strContainsChar (s : String) (c : Char) : Bool :=
  s.data.contains c

/-- Leading-whitespace trim (`String.prototype.trimStart`). -/
def strTrimLeft (s : String) : String :=
  ⟨s.data.dropWhile Char.isWhitespace⟩

/-- `String.prototype.trim`. -/
def strTrim (s : String) : String :=
  ⟨((s.data.dropWhile Char.isWhitespace).reverse.dropWhile Char.isWhitespace).reverse⟩

/-- `String.prototype.split(c)` for a single-character separator. -/
def splitOnCharGo (c : Char) : List Char → List Char → List String
  | [], tok => [⟨tok.reverse⟩]
  | d :: ds, tok =>
    if d = c then ⟨tok.reverse⟩ :: splitOnCharGo c ds []
    else splitOnCharGo c ds (d :: tok)

/-- `s.split(c)` (JS keeps empty fields; `"".split(c)` is `[""]`). -/
def splitOnChar (c : Char) (s : String) : List String :=
  splitOnCharGo c s.data []

/-- `String.prototype.replace` with a global literal pattern (non-empty). -/
def replaceAllGo (pat rep : List Char) : Nat → List Char → List Char
  | 0, l => l
  | _ + 1, [] => []
  | fuel + 1, c :: cs =>
    if List.isPrefixOf pat (c :: cs) then
      rep ++ replaceAllGo pat rep fuel ((c :: cs).drop pat.length)
    else c :: replaceAllGo pat rep fuel cs

/-- `s.replace(/pat/g, rep)` for a literal pattern. -/
def replaceAll (s pat rep : String) : String :=
  ⟨replaceAllGo pat.data rep.data s.data.length s.data⟩

-- ---------------------------------------------------------------------------
-- makeSparkline (agent-worker.ts, lines 621-633)
-- ---------------------------------------------------------------------------

/-- The eight sparkline block strings of `makeSparkline`. -/
def sparkBlocks : List String := ["▁", "▂", "▃", "▄", "▅", "▆", "▇", "█"]

/-- The block characters, for stating membership facts. -/
def sparkChars : List Char := ['▁', '▂', '▃', '▄', '▅', '▆', '▇', '█']

/-- One mapped element of `makeSparkline`:
`blocks[Math.floor(((v - min) / range) * (blocks.length - 1))]`,
where a JS out-of-range index would render as `undefined` in the join. -/
def sparkCell (mn range : ℚ) (v : ℚ) : String :=
  (jsIdx sparkBlocks (Int.floor ((v - mn) / range * 7))).getD "undefined"

/-- `makeSparkline` from `agent-worker.ts`: empty input gives `''`; otherwise
`min`/`max` over the values, `range = max - min || 1`, and one block character
per value, joined. -/
def makeSparkline (values : List ℚ) : String :=
  match values with
  | [] => ""
  | v0 :: vs =>
    let mn := vs.foldl min v0
    let mx := vs.foldl max v0
    let range := if mx - mn = 0 then 1 else mx - mn
    String.join ((v0 :: vs).map (sparkCell mn range))

-- ---------------------------------------------------------------------------
-- Cron helpers (TasksPage, src/unnamed/part_001, lines 16-154)
-- ---------------------------------------------------------------------------

def DAYS_OF_WEEK : List String :=
  ["Sunday", "Monday", "Tuesday", "Wednesday", "Thursday", "Friday", "Saturday"]

def DAYS_SHORT : List String := ["Sun", "Mon", "Tue", "Wed", "Thu", "Fri", "Sat"]

/-- The `ScheduleFrequency` union type of the tasks page (kebab-case values
rendered as Lean constructor names). -/
inductive ScheduleFrequency where
  | everyMinute
  | every5Min
  | every15Min
  | every30Min
  | hourly
  | daily
  | weekdays
  | weekly
  | monthly
  | custom
  deriving DecidableEq, Repr

/-- `buildCron` from the tasks page. -/
def buildCron (freq : ScheduleFrequency) (hour minute dayOfWeek dayOfMonth : Nat) :
    String :=
  match freq with
  | .everyMinute => "* * * * *"
  | .every5Min => "*/5 * * * *"
  | .every15Min => "*/15 * * * *"
  | .every30Min => "*/30 * * * *"
  | .hourly => toString minute ++ " * * * *"
  | .daily => toString minute ++ " " ++ toString hour ++ " * * *"
  | .weekdays => toString minute ++ " " ++ toString hour ++ " * * 1-5"
  | .weekly => toString minute ++ " " ++ toString hour ++ " * * " ++ toString dayOfWeek
  | .monthly =>
    toString minute ++ " " ++ toString hour ++ " " ++ toString dayOfMonth ++ " * *"
  | .custom => "* * * * *"

/-- `formatTime12(h, m)`; the arguments are JS numbers, so `NaN` (from a failed
`parseInt`) is representable as `none` and all comparisons with it are false. -/
def formatTime12 (h m : Option Int) : String :=
  let ampm := if jsGE h 12 then "PM" else "AM"
  let h12 := if h == some 0 then some 12 else if jsGT h 12 then h.map (· - 12) else h
  jsNumStr h12 ++ ":" ++ padStart (jsNumStr m) 2 '0' ++ " " ++ ampm

/-- `ordinal(n)`: `n + (s[(v - 20) % 10] || s[v] || s[0])` with JS truncating
remainder and out-of-range indexing yielding `undefined` (falsy). -/
def ordinal (n : Int) : String :=
  let sfx := ["th", "st", "nd", "rd"]
  let v := Int.tmod n 100
  toString n ++
    (match jsIdx sfx (Int.tmod (v - 20) 10) with
     | some x => x
     | none => (jsIdx sfx v).getD "th")

/-- `cron.trim().split(/\s+/)`: whitespace-separated tokens.  (For the empty
string JS returns `['']` and this model returns `[]`; both fail the
five-field check in `cronToHuman`, so the observable behaviour agrees.) -/
def splitWsGo : List Char → List Char → List String
  | [], tok => if tok = [] then [] else [⟨tok.reverse⟩]
  | c :: cs, tok =>
    if c.isWhitespace then
      (if tok = [] then [] else [(⟨tok.reverse⟩ : String)]) ++ splitWsGo cs []
    else splitWsGo cs (c :: tok)

def splitWs (s : String) : List String :=
  splitWsGo s.data []

/-- `cronToHuman` from the tasks page, branch for branch.  Template literals
are rendered as explicit appends. -/
def cronToHuman (cron : String) : String :=
  match splitWs cron with
  | [min, hour, dom, _month, dow] =>
    if cron = "* * * * *" then "Every minute"
    else if strStartsWith min "*/" && hour == "*" && dom == "*" && dow == "*" then
      "Every " ++ min.drop 2 ++ " minutes"
    else if hour == "*" && dom == "*" && dow == "*" &&
        !(strContainsChar min '*') && !(strContainsChar min '/') then
      match jsParseInt min with
      | some m =>
        if m = 0 then "Every hour" else "Every hour at :" ++ padStart (toString m) 2 '0'
      | none => "Every hour at :" ++ padStart "NaN" 2 '0'
    else if !(strContainsChar hour '*') && !(strContainsChar min '*') &&
        !(strContainsChar hour '/') && !(strContainsChar min '/') then
      if dom == "*" && dow == "*" then
        "Every day at " ++ formatTime12 (jsParseInt hour) (jsParseInt min)
      else if dom == "*" && dow == "1-5" then
        "Weekdays at " ++ formatTime12 (jsParseInt hour) (jsParseInt min)
      else if dom == "*" && !(dow == "*") then
        match jsParseInt dow with
        | some d =>
          if decide (0 ≤ d) && decide (d ≤ 6) then
            "Every " ++ (jsIdx DAYS_OF_WEEK d).getD "undefined" ++ " at " ++
              formatTime12 (jsParseInt hour) (jsParseInt min)
          else
            "Every " ++
              String.intercalate ", "
                ((splitOnChar ',' dow).map (fun x =>
                  match jsParseInt (strTrim x) with
                  | some nn =>
                    if decide (0 ≤ nn) && decide (nn ≤ 6) then
                      (jsIdx DAYS_SHORT nn).getD "undefined"
                    else x
                  | none => x)) ++
              " at " ++ formatTime12 (jsParseInt hour) (jsParseInt min)
        | none =>
          "Every " ++
            String.intercalate ", "
              ((splitOnChar ',' dow).map (fun x =>
                match jsParseInt (strTrim x) with
                | some nn =>
                  if decide (0 ≤ nn) && decide (nn ≤ 6) then
                    (jsIdx DAYS_SHORT nn).getD "undefined"
                  else x
                | none => x)) ++
            " at " ++ formatTime12 (jsParseInt hour) (jsParseInt min)
      else if dow == "*" && !(dom == "*") then
        match jsParseInt dom with
        | some d =>
          "Monthly on the " ++ ordinal d ++ " at " ++
            formatTime12 (jsParseInt hour) (jsParseInt min)
        | none => cron
      else cron
    else cron
  | _ => cron

-- ---------------------------------------------------------------------------
-- Worker data model (types.ts projections used by the worker)
-- ---------------------------------------------------------------------------

/-- The task record built by the `create_task` tool. -/
structure TaskData where
  id : String
  groupId : String
  schedule : String
  prompt : String
  enabled : Bool
  lastRun : Option Nat
  createdAt : Nat
  deriving DecidableEq, Repr

/-- One outbound `postMessage` of the worker (`WorkerOutbound`). -/
inductive Event where
  | typing (groupId : String)
  | tokenUsage (groupId : String)
      (inputTokens outputTokens cacheReadTokens cacheCreationTokens contextLimit : Nat)
  | toolActivity (groupId tool status : String)
  | thinkingLog (groupId kind label : String) (detail : Option String)
  | response (groupId text : String)
  | error (groupId err : String)
  | taskCreated (task : TaskData)
  | compactDone (groupId summary : String)
  deriving DecidableEq, Repr

/-- `log(groupId, kind, label, detail)` posts a thinking-log event. -/
def logEv (groupId kind label : String) (detail : Option String) : Event :=
  Event.thinkingLog groupId kind label detail

/-- Structured tool input (the parsed JSON object a provider attaches to a
tool call); absent fields are `none`. -/
structure ToolInput where
  command : Option String
  timeout : Option Nat
  path : Option String
  content : Option String
  url : Option String
  method : Option String
  headers : Option (List (String × String))
  body : Option String
  mode : Option String
  schedule : Option String
  prompt : Option String
  code : Option String
  deriving DecidableEq, Repr

/-- Model-level `JSON.stringify` for a string (no escaping of exotic
characters; only used to build log previews that no theorem inspects). -/
def jsonStr (s : String) : String := "\"" ++ s ++ "\""

/-- Model-level rendering of `JSON.stringify(input)` for log previews, with a
fixed field order. -/
def reprToolInput (i : ToolInput) : String :=
  let fld (k : String) (v : Option String) : List String :=
    match v with
    | some s => [jsonStr k ++ ":" ++ jsonStr s]
    | none => []
  let fldN (k : String) (v : Option Nat) : List String :=
    match v with
    | some n => [jsonStr k ++ ":" ++ toString n]
    | none => []
  "\x7b" ++
    String.intercalate ","
      (fld "command" i.command ++ fldN "timeout" i.timeout ++ fld "path" i.path ++
       fld "content" i.content ++ fld "url" i.url ++ fld "method" i.method ++
       fld "body" i.body ++ fld "mode" i.mode ++ fld "schedule" i.schedule ++
       fld "prompt" i.prompt ++ fld "code" i.code) ++ "\x7d"

/-- Result of the shell emulator (`executeShell`). -/
structure ShellResult where
  stdout : String
  stderr : String
  exitCode : Int
  deriving DecidableEq, Repr

/-- Value produced by the indirect-eval `javascript` tool.  `obj` carries the
`JSON.stringify(result, null, 2)` outcome (`none` when stringify throws) and
the `String(result)` fallback. -/
inductive JsResult where
  | undef
  | nullv
  | obj (stringified : Option String) (fallback : String)
  | prim (s : String)
  deriving DecidableEq, Repr

/-- Reply of the `fetch_url` tool's fetch.  `prices` lifts the
`JSON.parse(rawText).prices` outcome into the reply: `none` when the body is
not JSON or has no `prices` array, otherwise one entry per array element
(`none` modelling `NaN`, i.e. a non-array element or non-numeric `p[1]`). -/
structure FetchResp where
  status : Nat
  contentType : String
  text : String
  prices : Option (List (Option ℚ))
  deriving DecidableEq

/-- External back-ends reachable from `executeTool`, as oracles.  An `error`
result models a thrown exception carrying that message. -/
structure ToolEnv where
  executeShell : String → String → Nat → Except String ShellResult
  readGroupFile : String → String → Except String String
  writeGroupFile : String → String → String → Except String Unit
  listGroupFiles : String → String → Except String (List String)
  fetch : String → String → Option (List (String × String)) → Option String →
      Except String FetchResp
  runJs : String → Except String JsResult
  ulid : String
  now : Nat

/-- What one `executeTool` call produces: the returned string, the events it
posted, and the workspace writes it performed. -/
structure ToolOut where
  out : String
  events : List Event
  writes : List (String × String)
  deriving DecidableEq

/-- Rendering of the `javascript` tool result
(`undefined`/`null`/object/primitive cases). -/
def renderJs : JsResult → String
  | .undef => "(no return value)"
  | .nullv => "null"
  | .obj (some s) _ => s
  | .obj none fb => fb
  | .prim s => s

/-- `FETCH_MAX_RESPONSE` is imported from `config.ts`, which is not among the
sources; the spec only requires fetched bodies to be length-capped, so the
model fixes a positive cap. -/
def FETCH_MAX_RESPONSE : Nat := 100000

/-- Memory-document file name: `agent-worker.ts` writes the literal
`'CLAUDE.md'`; the `MEMORY_FILE` constant of the App.tsx worker variant comes
from the missing `config.ts` and is modelled as the same name. -/
def MEMORY_FILE : String := "CLAUDE.md"

-- ---------------------------------------------------------------------------
-- Regex pipelines of the worker, as character scanners
-- ---------------------------------------------------------------------------

/-- Case-insensitive prefix test; `pat` is given in lowercase. -/
def lowerPre (pat : List Char) (l : List Char) : Bool :=
  match pat, l with
  | [], _ => true
  | _ :: _, [] => false
  | p :: ps, c :: cs => p == c.toLower && lowerPre ps cs

/-- Like `dropThrough` but case-insensitive in the pattern. -/
def dropThroughCI (pat : List Char) : List Char → Option (List Char)
  | [] => none
  | c :: cs =>
    if lowerPre pat (c :: cs) then some ((c :: cs).drop pat.length)
    else dropThroughCI pat cs

/-- Scanner for `text.replace(/<internal>[\s\S]*?<\/internal>/g, '')`:
a `<internal>` with a later `</internal>` is removed through the first such
close; an unterminated open tag does not match and scanning continues. -/
def stripInternalGo : Nat → List Char → List Char
  | 0, l => l
  | _ + 1, [] => []
  | fuel + 1, c :: cs =>
    if List.isPrefixOf "<internal>".data (c :: cs) then
      match dropThrough "</internal>".data ((c :: cs).drop 10) with
      | some rest => stripInternalGo fuel rest
      | none => c :: stripInternalGo fuel cs
    else c :: stripInternalGo fuel cs

/-- `cleaned = text.replace(/<internal>[\s\S]*?<\/internal>/g, '')`. -/
def stripInternal (s : String) : String :=
  ⟨stripInternalGo s.data.length s.data⟩

/-- Length of the URL scheme at the head of `l`, matching `https?:\/\/`
case-insensitively. -/
def schemeLen (l : List Char) : Option Nat :=
  if lowerPre "https://".data l then some 8
  else if lowerPre "http://".data l then some 7
  else none

/-- After the `minimax:tool_call` marker: `\s+` then the captured
`https?:\/\/\S+`. -/
def urlAfterMarker (l : List Char) : Option (List Char) :=
  let ws := l.takeWhile (·.isWhitespace)
  if ws = [] then none
  else
    let rest := l.drop ws.length
    match schemeLen rest with
    | some n =>
      let tail := (rest.drop n).takeWhile (fun c => !c.isWhitespace)
      if tail = [] then none else some (rest.take n ++ tail)
    | none => none

/-- Scanner for `cleaned.match(/minimax:tool_call\s+(https?:\/\/\S+)/i)`,
returning the captured URL of the first match. -/
def findManualGo : Nat → List Char → Option (List Char)
  | 0, _ => none
  | _ + 1, [] => none
  | fuel + 1, c :: cs =>
    if lowerPre "minimax:tool_call".data (c :: cs) then
      match urlAfterMarker ((c :: cs).drop 17) with
      | some url => some url
      | none => findManualGo fuel cs
    else findManualGo fuel cs

/-- First `minimax:tool_call <url>` directive in a finished response. -/
def findManualUrl (s : String) : Option String :=
  (findManualGo s.data.length s.data).map (fun l => ⟨l⟩)

/-- The block-level tags removed by `stripHtml`'s first regex. -/
def blockTags : List (List Char) :=
  ["script".data, "style".data, "noscript".data, "svg".data, "head".data]

/-- Try to match `<tag[^>]*>[\s\S]*?</tag>` (case-insensitive) where `l` is
the text after the opening `<`; returns the remainder after the close tag. -/
def tryBlockTag (tag : List Char) (l : List Char) : Option (List Char) :=
  if lowerPre tag l then
    let after := l.drop tag.length
    let attrs := after.takeWhile (· ≠ '>')
    match after.drop attrs.length with
    | '>' :: body => dropThroughCI ('<' :: '/' :: tag ++ ['>']) body
    | _ => none
  else none

/-- Alternation over the block tags, in the source's order. -/
def tryAnyBlock (l : List Char) : Option (List Char) :=
  blockTags.foldr (fun t acc => (tryBlockTag t l).orElse (fun _ => acc)) none

/-- `text.replace(/<(script|style|noscript|svg|head)[^>]*>[\s\S]*?<\/\1>/gi, '')`. -/
def removeBlocksGo : Nat → List Char → List Char
  | 0, l => l
  | _ + 1, [] => []
  | fuel + 1, c :: cs =>
    if c = '<' then
      match tryAnyBlock cs with
      | some rest => removeBlocksGo fuel rest
      | none => c :: removeBlocksGo fuel cs
    else c :: removeBlocksGo fuel cs

/-- `text.replace(/<!--[\s\S]*?-->/g, '')`. -/
def removeCommentsGo : Nat → List Char → List Char
  | 0, l => l
  | _ + 1, [] => []
  | fuel + 1, c :: cs =>
    if List.isPrefixOf "<!--".data (c :: cs) then
      match dropThrough "-->".data ((c :: cs).drop 4) with
      | some rest => removeCommentsGo fuel rest
      | none => c :: removeCommentsGo fuel cs
    else c :: removeCommentsGo fuel cs

/-- `text.replace(/<[^>]+>/g, ' ')`. -/
def stripTagsGo : Nat → List Char → List Char
  | 0, l => l
  | _ + 1, [] => []
  | fuel + 1, c :: cs =>
    if c = '<' then
      let run := cs.takeWhile (· ≠ '>')
      match run, cs.drop run.length with
      | _ :: _, '>' :: rest => ' ' :: stripTagsGo fuel rest
      | _, _ => c :: stripTagsGo fuel cs
    else c :: stripTagsGo fuel cs

/-- `text.replace(/&#\d+;/g, '')`. -/
def stripNumEntGo : Nat → List Char → List Char
  | 0, l => l
  | _ + 1, [] => []
  | fuel + 1, c :: cs =>
    if c = '&' then
      match cs with
      | '#' :: rest =>
        let ds := rest.takeWhile (·.isDigit)
        match ds, rest.drop ds.length with
        | _ :: _, ';' :: rest2 => stripNumEntGo fuel rest2
        | _, _ => c :: stripNumEntGo fuel cs
      | _ => c :: stripNumEntGo fuel cs
    else c :: stripNumEntGo fuel cs

/-- `text.replace(/[ \t]+/g, ' ')`. -/
def collapseSpacesGo : Nat → List Char → List Char
  | 0, l => l
  | _ + 1, [] => []
  | fuel + 1, c :: cs =>
    if c = ' ' ∨ c = '\t' then
      ' ' :: collapseSpacesGo fuel (cs.dropWhile (fun d => d = ' ' ∨ d = '\t'))
    else c :: collapseSpacesGo fuel cs

/-- Index of the last `'\n'` in `l`, if any. -/
def lastNewlineIdx (l : List Char) : Option Nat :=
  match l.reverse.findIdx? (· = '\n') with
  | some j => some (l.length - 1 - j)
  | none => none

/-- `text.replace(/\n\s*\n/g, '\n')`: a newline, greedy whitespace ending at a
further newline, collapsed to one newline; scanning resumes after the match. -/
def collapseNLGo : Nat → List Char → List Char
  | 0, l => l
  | _ + 1, [] => []
  | fuel + 1, c :: cs =>
    if c = '\n' then
      match lastNewlineIdx (cs.takeWhile (·.isWhitespace)) with
      | some i => '\n' :: collapseNLGo fuel (cs.drop (i + 1))
      | none => c :: collapseNLGo fuel cs
    else c :: collapseNLGo fuel cs

/-- `stripHtml` from the worker: block removal, comment removal, tag removal,
entity decoding, whitespace collapsing, trim — in the source's order. -/
def stripHtml (html : String) : String :=
  let t1 : String := ⟨removeBlocksGo html.data.length html.data⟩
  let t2 : String := ⟨removeCommentsGo t1.data.length t1.data⟩
  let t3 : String := ⟨stripTagsGo t2.data.length t2.data⟩
  let t4 : String :=
    replaceAll (replaceAll (replaceAll (replaceAll (replaceAll t3 "&amp;" "&")
      "&lt;" "<") "&gt;" ">") "&quot;" "\"") "&#39;" "\x27"
  let t5 : String := replaceAll t4 "&nbsp;" " "
  let t6 : String := ⟨stripNumEntGo t5.data.length t5.data⟩
  let t7 : String := ⟨collapseSpacesGo t6.data.length t6.data⟩
  let t8 : String := ⟨collapseNLGo t7.data.length t7.data⟩
  strTrim t8

-- ---------------------------------------------------------------------------
-- Tool execution — agent-worker.ts variant (lines 318-431)
-- ---------------------------------------------------------------------------

/-- The `bash` case: stdout/stderr concatenation and exit-code annotation. -/
def bashCase (r : ShellResult) : String :=
  let output := r.stdout
  let output :=
    if r.stderr ≠ "" then output ++ (if output ≠ "" then "\n" else "") ++ r.stderr
    else output
  let output :=
    if r.exitCode ≠ 0 ∧ r.stderr = "" then
      output ++ "\n[exit code: " ++ toString r.exitCode ++ "]"
    else output
  if output = "" then "(no output)" else output

/-- The `fetch_url` case body: status line, HTML stripping, length cap, and
the sparkline annotation for JSON bodies with a numeric `prices` series. -/
def fetchCase (fr : FetchResp) : String :=
  let status := "[HTTP " ++ toString fr.status ++ "]\n"
  let body :=
    if strIncludes fr.contentType "html" ∨ strStartsWith (strTrimLeft fr.text) "<" then
      stripHtml fr.text
    else fr.text
  let extra :=
    match fr.prices with
    | some entries =>
      let values := entries.filterMap id
      if values ≠ [] then "\n\nSparkline: " ++ makeSparkline values else ""
    | none => ""
  status ++ body.take FETCH_MAX_RESPONSE ++ extra

/-- The `create_task` case: the task record posted to the main thread. -/
def createTaskData (env : ToolEnv) (input : ToolInput) (groupId : String) : TaskData :=
  ⟨env.ulid, groupId, input.schedule.getD "", input.prompt.getD "", true, none, env.now⟩

/-- The `javascript` case: the inner try/catch converts evaluation errors to a
`JavaScript error: ...` string, so this branch never throws outward. -/
def javascriptCase (env : ToolEnv) (input : ToolInput) : String :=
  match env.runJs (input.code.getD "") with
  | .error e => "JavaScript error: " ++ e
  | .ok r => renderJs r

namespace AgentWorker

/-- Case labels of this variant's `switch (name)` (no `read_memory` case). -/
def handledTools : List String :=
  ["bash", "read_file", "write_file", "list_files", "fetch_url", "update_memory",
   "create_task", "javascript"]

/-- Body of `executeTool` before the enclosing catch: `.error e` models a tool
action throwing with message `e`. -/
def toolAction (env : ToolEnv) (name : String) (input : ToolInput)
    (groupId : String) : Except String ToolOut :=
  if name = "bash" then
    match env.executeShell (input.command.getD "") groupId
        (min (jsOrNat input.timeout 30) 120) with
    | .error e => .error e
    | .ok r => .ok ⟨bashCase r, [], []⟩
  else if name = "read_file" then
    match env.readGroupFile groupId (input.path.getD "") with
    | .error e => .error e
    | .ok c => .ok ⟨c, [], []⟩
  else if name = "write_file" then
    match env.writeGroupFile groupId (input.path.getD "") (input.content.getD "") with
    | .error e => .error e
    | .ok _ =>
      .ok ⟨"Written " ++ toString (input.content.getD "").length ++ " bytes to " ++
            input.path.getD "", [],
          [(input.path.getD "", input.content.getD "")]⟩
  else if name = "list_files" then
    match env.listGroupFiles groupId (jsOrStr input.path ".") with
    | .error e => .error e
    | .ok entries =>
      .ok ⟨if entries.length > 0 then String.intercalate "\n" entries
           else "(empty directory)", [], []⟩
  else if name = "fetch_url" then
    match env.fetch (input.url.getD "") (jsOrStr input.method "GET") input.headers
        input.body with
    | .error e => .error e
    | .ok fr => .ok ⟨fetchCase fr, [], []⟩
  else if name = "update_memory" then
    match env.writeGroupFile groupId "CLAUDE.md" (input.content.getD "") with
    | .error e => .error e
    | .ok _ =>
      .ok ⟨"Memory updated successfully.", [], [("CLAUDE.md", input.content.getD "")]⟩
  else if name = "create_task" then
    let task := createTaskData env input groupId
    .ok ⟨"Task created successfully.\nSchedule: " ++ task.schedule ++ "\nPrompt: " ++
          task.prompt, [Event.taskCreated task], []⟩
  else if name = "javascript" then
    .ok ⟨javascriptCase env input, [], []⟩
  else
    .ok ⟨"Unknown tool: " ++ name, [], []⟩

/-- `executeTool` of `agent-worker.ts`: the outer catch turns any thrown error
into a `Tool error (<name>): <message>` string, so the call always returns. -/
def executeTool (env : ToolEnv) (name : String) (input : ToolInput)
    (groupId : String) : ToolOut :=
  match toolAction env name input groupId with
  | .ok t => t
  | .error e => ⟨"Tool error (" ++ name ++ "): " ++ e, [], []⟩

end AgentWorker

-- ---------------------------------------------------------------------------
-- Tool execution — App.tsx worker variant (including read_memory and
-- mode-aware update_memory, lines 437-572 of the embedded worker)
-- ---------------------------------------------------------------------------

namespace AppWorker

/-- Case labels of this variant's `switch (name)`. -/
def handledTools : List String :=
  ["bash", "read_file", "write_file", "list_files", "fetch_url", "read_memory",
   "update_memory", "create_task", "javascript"]

/-- Body of the App.tsx variant of `executeTool` before the enclosing catch. -/
def toolAction (env : ToolEnv) (name : String) (input : ToolInput)
    (groupId : String) : Except String ToolOut :=
  if name = "bash" then
    match env.executeShell (input.command.getD "") groupId
        (min (jsOrNat input.timeout 30) 120) with
    | .error e => .error e
    | .ok r => .ok ⟨bashCase r, [], []⟩
  else if name = "read_file" then
    match env.readGroupFile groupId (input.path.getD "") with
    | .error e => .error e
    | .ok c => .ok ⟨c, [], []⟩
  else if name = "write_file" then
    match env.writeGroupFile groupId (input.path.getD "") (input.content.getD "") with
    | .error e => .error e
    | .ok _ =>
      .ok ⟨"Written " ++ toString (input.content.getD "").length ++ " bytes to " ++
            input.path.getD "", [],
          [(input.path.getD "", input.content.getD "")]⟩
  else if name = "list_files" then
    match env.listGroupFiles groupId (jsOrStr input.path ".") with
    | .error e => .error e
    | .ok entries =>
      .ok ⟨if entries.length > 0 then String.intercalate "\n" entries
           else "(empty directory)", [], []⟩
  else if name = "fetch_url" then
    match env.fetch (input.url.getD "") (jsOrStr input.method "GET") input.headers
        input.body with
    | .error e => .error e
    | .ok fr => .ok ⟨fetchCase fr, [], []⟩
  else if name = "read_memory" then
    match env.readGroupFile groupId MEMORY_FILE with
    | .ok c => .ok ⟨if c = "" then "(Memory file is empty)" else c, [], []⟩
    | .error _ =>
      .ok ⟨"(No memory file exists yet. Use update_memory to create one.)", [], []⟩
  else if name = "update_memory" then
    let mode := jsOrStr input.mode "replace"
    let newContent := input.content.getD ""
    if mode = "append" then
      let existing :=
        match env.readGroupFile groupId MEMORY_FILE with
        | .ok c => c
        | .error _ => ""
      let separator := if existing ≠ "" then "\n\n" else ""
      match env.writeGroupFile groupId MEMORY_FILE (existing ++ separator ++ newContent) with
      | .error e => .error e
      | .ok _ =>
        .ok ⟨"Memory updated successfully.", [],
            [(MEMORY_FILE, existing ++ separator ++ newContent)]⟩
    else
      match env.writeGroupFile groupId MEMORY_FILE newContent with
      | .error e => .error e
      | .ok _ => .ok ⟨"Memory updated successfully.", [], [(MEMORY_FILE, newContent)]⟩
  else if name = "create_task" then
    let task := createTaskData env input groupId
    .ok ⟨"Task created successfully.\nSchedule: " ++ task.schedule ++ "\nPrompt: " ++
          task.prompt, [Event.taskCreated task], []⟩
  else if name = "javascript" then
    .ok ⟨javascriptCase env input, [], []⟩
  else
    .ok ⟨"Unknown tool: " ++ name, [], []⟩

/-- The App.tsx variant of `executeTool` with the same enclosing catch. -/
def executeTool (env : ToolEnv) (name : String) (input : ToolInput)
    (groupId : String) : ToolOut :=
  match toolAction env name input groupId with
  | .ok t => t
  | .error e => ⟨"Tool error (" ++ name ++ "): " ++ e, [], []⟩

end AppWorker

/-- The exposed tool catalog.  Modelled from the spec: `tools.ts`
(`TOOL_DEFINITIONS`) is not among the sources; the spec lists the exposed
names `bash`, `read_file`, `write_file`, `list_files`, `fetch_url`,
`read_memory`, `update_memory`, `create_task`, `javascript`. -/
def toolCatalog : List String :=
  ["bash", "read_file", "write_file", "list_files", "fetch_url", "read_memory",
   "update_memory", "create_task", "javascript"]

-- ---------------------------------------------------------------------------
-- Anthropic reply model and the agent-worker tool-use loop (lines 65-226)
-- ---------------------------------------------------------------------------

/-- Anthropic `usage` counters (each `|| 0` in the worker). -/
structure Usage where
  input_tokens : Option Nat
  output_tokens : Option Nat
  cache_read_input_tokens : Option Nat
  cache_creation_input_tokens : Option Nat
  deriving DecidableEq, Repr

/-- One content block of an Anthropic reply. -/
inductive Block where
  | text (s : String)
  | tool_use (id name : String) (input : ToolInput)
  | other
  deriving DecidableEq, Repr

/-- A parsed Anthropic reply. -/
structure AnthropicResult where
  usage : Option Usage
  content : List Block
  stop_reason : String
  deriving DecidableEq, Repr

/-- One synthetic `tool_result` entry pushed back to the provider. -/
structure ToolResultEntry where
  tool_use_id : String
  content : String
  deriving DecidableEq, Repr

/-- Content of a conversation message in the working list. -/
inductive MsgContent where
  | str (s : String)
  | blocks (bs : List Block)
  | toolResults (rs : List ToolResultEntry)
  deriving DecidableEq, Repr

/-- A provider-facing conversation message. -/
structure ConversationMessage where
  role : String
  content : MsgContent
  deriving DecidableEq, Repr

/-- Model-level `JSON.stringify` of message content (used when a non-string
content is flattened for the OpenAI-style providers). -/
def reprMsgContent : MsgContent → String
  | .str s => s
  | .blocks bs =>
    "[" ++ String.intercalate ","
      (bs.map (fun b =>
        match b with
        | .text s => jsonStr s
        | .tool_use id name input =>
          "\x7b" ++ jsonStr id ++ "," ++ jsonStr name ++ "," ++ reprToolInput input ++
            "\x7d"
        | .other => "\x7b\x7d")) ++ "]"
  | .toolResults rs =>
    "[" ++ String.intercalate ","
      (rs.map (fun r => "\x7b" ++ jsonStr r.tool_use_id ++ "," ++ jsonStr r.content ++
        "\x7d")) ++ "]"

/-- `getContextLimit` of the worker: a fixed 200k window. -/
def getContextLimit (_model : String) : Nat := 200000

/-- Token-usage events emitted after a round trip (`if (result.usage) ...`). -/
def usageEvents (groupId model : String) (u : Option Usage) : List Event :=
  match u with
  | none => []
  | some u =>
    [Event.tokenUsage groupId (u.input_tokens.getD 0) (u.output_tokens.getD 0)
      (u.cache_read_input_tokens.getD 0) (u.cache_creation_input_tokens.getD 0)
      (getContextLimit model)]

/-- Log entries for the text blocks of a reply (non-empty text only). -/
def textLogs (groupId : String) : List Block → List Event
  | [] => []
  | .text s :: bs =>
    (if s ≠ "" then [logEv groupId "text" "Response text" (some (preview 200 s))]
     else []) ++ textLogs groupId bs
  | _ :: bs => textLogs groupId bs

/-- The tool-use projection of a content list: `(id, name, input)` per
`tool_use` block, in order. -/
def toolUses : List Block → List (String × String × ToolInput)
  | [] => []
  | .tool_use id name input :: bs => (id, name, input) :: toolUses bs
  | _ :: bs => toolUses bs

/-- A fetched body for the auxiliary `minimax:tool_call` fetch, with the
`JSON.parse` outcome for a `prices` series lifted into the oracle reply. -/
structure AuxDoc where
  txt : String
  prices : Option (List (Option ℚ))
  deriving DecidableEq

/-- Events of the manual `minimax:tool_call` handling on a finished response:
one auxiliary fetch whose result (or error) is posted as a further response. -/
def manualFetchEvents (fetchO : String → Except String AuxDoc)
    (groupId cleaned : String) : List Event :=
  match findManualUrl cleaned with
  | none => []
  | some url =>
    match fetchO url with
    | .error e => [Event.response groupId ("[Tool fetch error]: " ++ e)]
    | .ok d =>
      let extra :=
        match d.prices with
        | some entries =>
          let vals := entries.filterMap id
          if vals ≠ [] then d.txt ++ "\n\nSparkline: " ++ makeSparkline vals
          else d.txt
        | none => d.txt
      [Event.response groupId ("[Tool fetch result from " ++ url ++ "]:\n" ++ extra)]

/-- Observable outcome of a handler run: posted events, tool dispatches made
through the Tool Executor, and the number of provider calls issued. -/
structure RunOut where
  events : List Event
  dispatches : List (String × ToolInput)
  calls : Nat
  deriving DecidableEq

namespace AgentWorker

/-- Accumulated output of the `for (const block of result.content)` loop. -/
structure BlocksOut where
  events : List Event
  dispatches : List (String × ToolInput)
  results : List ToolResultEntry
  deriving DecidableEq

/-- Per-block tool execution of the loop body: a `tool-call` log, a running
tool-activity event, the Tool Executor call (whose own posts interleave
here), a `tool-result` log, a done tool-activity event, and the synthetic
`tool_result` entry (content capped at 100000). -/
def execBlocks (env : ToolEnv) (groupId : String) : List Block → BlocksOut
  | [] => ⟨[], [], []⟩
  | b :: bs =>
    let rest := execBlocks env groupId bs
    match b with
    | .tool_use id name input =>
      let t := executeTool env name input groupId
      ⟨[logEv groupId "tool-call" ("Tool: " ++ name)
          (some (preview 300 (reprToolInput input))),
        Event.toolActivity groupId name "running"] ++ t.events ++
       [logEv groupId "tool-result" ("Result: " ++ name) (some (preview 500 t.out)),
        Event.toolActivity groupId name "done"] ++ rest.events,
       (name, input) :: rest.dispatches,
       ⟨id, t.out.take 100000⟩ :: rest.results⟩
    | _ => rest

/-- Outcome of processing one provider reply: the events it posts, the
dispatches it makes, and either the grown working message list (tool-use
round) or `none` (final answer, loop ends). -/
structure StepOut where
  events : List Event
  dispatches : List (String × ToolInput)
  next : Option (List ConversationMessage)
  deriving DecidableEq

/-- The body of the Anthropic loop after a successful round trip: usage
emission, text-block logging, then either the tool-use round (execute all
tool blocks, append the assistant turn and the synthetic tool-result turn,
re-signal typing) or the final-answer processing (strip internal tags, post
the response, handle a manual `minimax:tool_call` directive). -/
def processResult (env : ToolEnv) (fetchO : String → Except String AuxDoc)
    (groupId model : String) (msgs : List ConversationMessage)
    (r : AnthropicResult) : StepOut :=
  let uevs := usageEvents groupId model r.usage
  let tevs := textLogs groupId r.content
  if r.stop_reason = "tool_use" then
    let bo := execBlocks env groupId r.content
    ⟨uevs ++ tevs ++ bo.events ++ [Event.typing groupId], bo.dispatches,
     some (msgs ++ [⟨"assistant", .blocks r.content⟩, ⟨"user", .toolResults bo.results⟩])⟩
  else
    let text := String.join (r.content.filterMap (fun b =>
      match b with
      | .text s => some s
      | _ => none))
    let cleaned := strTrim (stripInternal text)
    ⟨uevs ++ tevs ++
      [Event.response groupId (if cleaned = "" then "(no response)" else cleaned)] ++
      manualFetchEvents fetchO groupId cleaned, [], none⟩

/-- The fixed iteration ceiling of the tool-use loop. -/
def maxIterations : Nat := 25

/-- The fixed cautionary response posted when the ceiling is reached. -/
def maxIterationsText : String :=
  "⚠️ Reached maximum tool-use iterations (25). Stopping to avoid excessive API usage."

/-- The `while (iterations < maxIterations)` loop, by remaining fuel.  Each
round logs the API call, consults the round-trip oracle (an `error` models a
thrown network error or non-success HTTP reply, caught by the enclosing
try/catch which posts a single error event), and otherwise processes the
reply; exhausted fuel posts the fixed cautionary response. -/
def runAnthropic (oracle : Nat → Except String AnthropicResult) (env : ToolEnv)
    (fetchO : String → Except String AuxDoc) (groupId model : String) :
    Nat → Nat → List ConversationMessage → RunOut
  | 0, _, _ => ⟨[Event.response groupId maxIterationsText], [], 0⟩
  | fuel + 1, iters, msgs =>
    let callLog := logEv groupId "api-call" ("API call #" ++ toString (iters + 1))
      (some (toString msgs.length ++ " messages in context"))
    match oracle (iters + 1) with
    | .error e => ⟨[callLog, Event.error groupId e], [], 1⟩
    | .ok r =>
      let st := processResult env fetchO groupId model msgs r
      match st.next with
      | some msgs2 =>
        let rest := runAnthropic oracle env fetchO groupId model fuel (iters + 1) msgs2
        ⟨callLog :: st.events ++ rest.events, st.dispatches ++ rest.dispatches,
         1 + rest.calls⟩
      | none => ⟨callLog :: st.events, st.dispatches, 1⟩

/-- `handleAnthropicInvoke`: run the loop with 25 iterations of fuel from the
given conversation.  (`systemPrompt`, `apiKey` and `maxTokens` only shape the
abstracted request body.) -/
def handleAnthropicInvoke (groupId : String) (messages : List ConversationMessage)
    (_systemPrompt _apiKey : String) (model : String) (_maxTokens : Nat)
    (oracle : Nat → Except String AnthropicResult) (env : ToolEnv)
    (fetchO : String → Except String AuxDoc) : RunOut :=
  runAnthropic oracle env fetchO groupId model maxIterations 0 messages

/-- `handleCompact` (lines 232-246) plus `compactAnthropic` (lines 248-312):
Ollama/Open WebUI short-circuit to a fixed `compact-done` without any
provider call; otherwise one summarization round trip is performed. -/
def handleCompact (groupId provider : String) (messages : List ConversationMessage)
    (oracleA : Except String AnthropicResult) : RunOut :=
  let startEvs :=
    [Event.typing groupId,
     logEv groupId "info" "Compacting context"
       (some ("Summarizing " ++ toString messages.length ++ " messages (" ++
         provider ++ ")"))]
  if provider = "ollama" ∨ provider = "openwebui" then
    ⟨startEvs ++
      [Event.compactDone groupId ("Compaction not yet supported for " ++ provider)],
     [], 0⟩
  else
    match oracleA with
    | .error e => ⟨startEvs ++ [Event.error groupId ("Compaction failed: " ++ e)], [], 1⟩
    | .ok r =>
      let summary := String.join (r.content.filterMap (fun b =>
        match b with
        | .text s => some s
        | _ => none))
      ⟨startEvs ++
        [logEv groupId "info" "Compaction complete"
          (some ("Summary: " ++ toString summary.length ++ " chars")),
         Event.compactDone groupId summary], [], 1⟩

end AgentWorker

-- ---------------------------------------------------------------------------
-- OpenAI-compatible reply model (Open WebUI / Ollama)
-- ---------------------------------------------------------------------------

/-- `tc.function` of an OpenAI-style tool call; `arguments` carries the parsed
argument object (the `JSON.parse` of a string encoding is lifted into the
reply model). -/
structure OAFunction where
  name : String
  arguments : ToolInput
  deriving DecidableEq, Repr

/-- One entry of a `tool_calls` array. -/
structure OAToolCall where
  id : String
  function : OAFunction
  deriving DecidableEq, Repr

/-- The assistant message of an OpenAI-style reply
(`result.choices?.[0]?.message` / `result.message`). -/
structure OAMessage where
  content : Option String
  tool_calls : Option (List OAToolCall)
  deriving DecidableEq, Repr

/-- `result.usage` of an Open WebUI reply. -/
structure OAUsage where
  prompt_tokens : Option Nat
  completion_tokens : Option Nat
  deriving DecidableEq, Repr

/-- A parsed Open WebUI chat-completions reply (first choice only, as read by
the worker). -/
structure OAResult where
  usage : Option OAUsage
  message : Option OAMessage
  deriving DecidableEq, Repr

/-- A parsed Ollama `/api/chat` reply. -/
structure OllamaResult where
  message : Option OAMessage
  prompt_eval_count : Option Nat
  eval_count : Option Nat
  deriving DecidableEq, Repr

/-- Working message of the Open WebUI conversation (assistant turns may carry
`tool_calls`, tool-result turns carry `tool_call_id`). -/
structure OAMsg where
  role : String
  content : Option String
  tool_calls : Option (List OAToolCall)
  tool_call_id : Option String
  deriving DecidableEq, Repr

/-- Working message of the Ollama conversation. -/
structure OllamaMsg where
  role : String
  content : String
  tool_calls : Option (List OAToolCall)
  deriving DecidableEq, Repr

/-- `{role, content}` projection of the prior conversation, flattening
non-string content with `JSON.stringify`. -/
def flatContent (m : ConversationMessage) : String :=
  match m.content with
  | .str s => s
  | c => reprMsgContent c

namespace AgentWorker

/-- `handleOpenWebUIInvoke` of `agent-worker.ts` (lines 437-486): a single
chat-completions call with no tool loop; the reply's message content is
posted as the response. -/
def handleOpenWebUIInvoke (groupId : String) (messages : List ConversationMessage)
    (systemPrompt _model : String) (_maxTokens : Nat)
    (oracle : Except String OAResult) : RunOut :=
  let openAIMessages : List OAMsg :=
    ⟨"system", some systemPrompt, none, none⟩ ::
      messages.map (fun m => ⟨m.role, some (flatContent m), none, none⟩)
  let callLog := logEv groupId "api-call" "OpenWebUI API Call"
    (some (toString openAIMessages.length ++ " messages"))
  match oracle with
  | .error e => ⟨[callLog, Event.error groupId e], [], 1⟩
  | .ok r =>
    let responseText := (r.message.bind (·.content)).getD ""
    ⟨[callLog, logEv groupId "text" "Response" (some (preview 200 responseText)),
      Event.response groupId responseText], [], 1⟩

/-- `handleOllamaInvoke` of `agent-worker.ts` (lines 492-603): the loop body
executes once and `break`s, so exactly one provider call is made and no tool
is ever dispatched; token usage is emitted when `prompt_eval_count` is a
number, the content is posted as the response, and a manual
`minimax:tool_call` directive triggers one auxiliary fetch.  (The post-loop
ceiling check is dead code after the `break` and posts nothing.) -/
def handleOllamaInvoke (groupId : String) (messages : List ConversationMessage)
    (systemPrompt : String) (model : String) (_maxTokens : Nat)
    (oracle : Nat → Except String OllamaResult)
    (fetchO : String → Except String AuxDoc) : RunOut :=
  let ollamaMessages : List OllamaMsg :=
    ⟨"system", systemPrompt, none⟩ ::
      messages.map (fun m =>
        ⟨if m.role = "assistant" then "assistant" else "user", flatContent m, none⟩)
  let callLog := logEv groupId "api-call" "Ollama call #1"
    (some (toString ollamaMessages.length ++ " messages"))
  match oracle 1 with
  | .error e => ⟨[callLog, Event.error groupId e], [], 1⟩
  | .ok r =>
    let responseText := (r.message.bind (·.content)).getD ""
    let uevs :=
      match r.prompt_eval_count with
      | some pec =>
        [Event.tokenUsage groupId pec (r.eval_count.getD 0) 0 0 (getContextLimit model)]
      | none => []
    ⟨callLog :: uevs ++
      [logEv groupId "text" "Response" (some (preview 200 responseText)),
       Event.response groupId responseText] ++
      manualFetchEvents fetchO groupId responseText, [], 1⟩

end AgentWorker

-- ---------------------------------------------------------------------------
-- App.tsx worker variant: full tool loops for Open WebUI and Ollama
-- ---------------------------------------------------------------------------

namespace AppWorker

/-- Accumulated output of the `for (const tc of toolCalls)` loop shared by the
Open WebUI and Ollama branches of the App.tsx worker: events, dispatches, and
`(tool_call_id, capped content)` pairs for the tool-result turns. -/
structure ToolCallsOut where
  events : List Event
  dispatches : List (String × ToolInput)
  results : List (String × String)
  deriving DecidableEq

/-- Execute the tool calls of one reply, in order, via this variant's
`executeTool`. -/
def execToolCalls (env : ToolEnv) (groupId : String) :
    List OAToolCall → ToolCallsOut
  | [] => ⟨[], [], []⟩
  | tc :: tcs =>
    let rest := execToolCalls env groupId tcs
    let t := executeTool env tc.function.name tc.function.arguments groupId
    ⟨[logEv groupId "tool-call" ("Tool: " ++ tc.function.name)
        (some (preview 300 (reprToolInput tc.function.arguments))),
      Event.toolActivity groupId tc.function.name "running"] ++ t.events ++
     [logEv groupId "tool-result" ("Result: " ++ tc.function.name)
        (some (preview 500 t.out)),
      Event.toolActivity groupId tc.function.name "done"] ++ rest.events,
     (tc.function.name, tc.function.arguments) :: rest.dispatches,
     (tc.id, t.out.take 100000) :: rest.results⟩

/-- Outcome of processing one Open WebUI reply. -/
structure OAStep where
  events : List Event
  dispatches : List (String × ToolInput)
  next : Option (List OAMsg)
  deriving DecidableEq

/-- Body of the Open WebUI loop after a successful round trip: a missing
message throws (`.error`), usage is emitted if present, and the reply either
carries tool calls (execute them, push the assistant turn and the tool-result
turns, re-signal typing) or is final (log and post the response). -/
def processOAResult (env : ToolEnv) (groupId model : String) (msgs : List OAMsg)
    (r : OAResult) : Except String OAStep :=
  match r.message with
  | none => .error "No message in response"
  | some message =>
    let uevs :=
      match r.usage with
      | some u =>
        [Event.tokenUsage groupId (u.prompt_tokens.getD 0) (u.completion_tokens.getD 0)
          0 0 (getContextLimit model)]
      | none => []
    match message.tool_calls with
    | some tcs =>
      if tcs ≠ [] then
        let tco := execToolCalls env groupId tcs
        .ok ⟨uevs ++ tco.events ++ [Event.typing groupId], tco.dispatches,
          some (msgs ++
            [⟨"assistant", jsOrNull message.content, some tcs, none⟩] ++
            tco.results.map (fun pr => ⟨"tool", some pr.2, none, some pr.1⟩))⟩
      else
        let responseText := message.content.getD ""
        .ok ⟨uevs ++
          [logEv groupId "text" "Response" (some (preview 200 responseText)),
           Event.response groupId
             (if responseText = "" then "(no response)" else responseText)],
          [], none⟩
    | none =>
      let responseText := message.content.getD ""
      .ok ⟨uevs ++
        [logEv groupId "text" "Response" (some (preview 200 responseText)),
         Event.response groupId
           (if responseText = "" then "(no response)" else responseText)],
        [], none⟩

/-- The Open WebUI loop of the App.tsx worker (embedded lines 593-738), by
remaining fuel; the ceiling posts the same fixed cautionary text as the
Anthropic loop. -/
def runOpenWebUI (oracle : Nat → Except String OAResult) (env : ToolEnv)
    (groupId model : String) : Nat → Nat → List OAMsg → RunOut
  | 0, _, _ => ⟨[Event.response groupId AgentWorker.maxIterationsText], [], 0⟩
  | fuel + 1, iters, msgs =>
    let callLog := logEv groupId "api-call" ("OpenWebUI call #" ++ toString (iters + 1))
      (some (toString msgs.length ++ " messages"))
    match oracle (iters + 1) with
    | .error e => ⟨[callLog, Event.error groupId e], [], 1⟩
    | .ok r =>
      match processOAResult env groupId model msgs r with
      | .error e => ⟨[callLog, Event.error groupId e], [], 1⟩
      | .ok st =>
        match st.next with
        | some msgs2 =>
          let rest := runOpenWebUI oracle env groupId model fuel (iters + 1) msgs2
          ⟨callLog :: st.events ++ rest.events, st.dispatches ++ rest.dispatches,
           1 + rest.calls⟩
        | none => ⟨callLog :: st.events, st.dispatches, 1⟩

/-- `handleOpenWebUIInvoke` of the App.tsx worker. -/
def handleOpenWebUIInvoke (groupId : String) (messages : List ConversationMessage)
    (systemPrompt : String) (model : String) (_maxTokens : Nat)
    (oracle : Nat → Except String OAResult) (env : ToolEnv) : RunOut :=
  let openAIMessages : List OAMsg :=
    ⟨"system", some systemPrompt, none, none⟩ ::
      messages.map (fun m => ⟨m.role, some (flatContent m), none, none⟩)
  runOpenWebUI oracle env groupId model AgentWorker.maxIterations 0 openAIMessages

/-- Outcome of processing one Ollama reply. -/
structure OllamaStep where
  events : List Event
  dispatches : List (String × ToolInput)
  next : Option (List OllamaMsg)
  deriving DecidableEq

/-- Body of the Ollama loop of the App.tsx worker after a successful round
trip. -/
def processOllamaResult (env : ToolEnv) (groupId model : String)
    (msgs : List OllamaMsg) (r : OllamaResult) : Except String OllamaStep :=
  match r.message with
  | none => .error "No message in response"
  | some message =>
    let uevs :=
      match r.prompt_eval_count with
      | some pec =>
        [Event.tokenUsage groupId pec (r.eval_count.getD 0) 0 0 (getContextLimit model)]
      | none => []
    match message.tool_calls with
    | some tcs =>
      if tcs ≠ [] then
        let tco := execToolCalls env groupId tcs
        .ok ⟨uevs ++ tco.events ++ [Event.typing groupId], tco.dispatches,
          some (msgs ++
            [⟨"assistant", message.content.getD "", some tcs⟩] ++
            tco.results.map (fun pr => ⟨"tool", pr.2, none⟩))⟩
      else
        let responseText := message.content.getD ""
        .ok ⟨uevs ++
          [logEv groupId "text" "Response" (some (preview 200 responseText)),
           Event.response groupId
             (if responseText = "" then "(no response)" else responseText)],
          [], none⟩
    | none =>
      let responseText := message.content.getD ""
      .ok ⟨uevs ++
        [logEv groupId "text" "Response" (some (preview 200 responseText)),
         Event.response groupId
           (if responseText = "" then "(no response)" else responseText)],
        [], none⟩

/-- The Ollama loop of the App.tsx worker (embedded lines 744-891). -/
def runOllama (oracle : Nat → Except String OllamaResult) (env : ToolEnv)
    (groupId model : String) : Nat → Nat → List OllamaMsg → RunOut
  | 0, _, _ => ⟨[Event.response groupId AgentWorker.maxIterationsText], [], 0⟩
  | fuel + 1, iters, msgs =>
    let callLog := logEv groupId "api-call" ("Ollama call #" ++ toString (iters + 1))
      (some (toString msgs.length ++ " messages"))
    match oracle (iters + 1) with
    | .error e => ⟨[callLog, Event.error groupId e], [], 1⟩
    | .ok r =>
      match processOllamaResult env groupId model msgs r with
      | .error e => ⟨[callLog, Event.error groupId e], [], 1⟩
      | .ok st =>
        match st.next with
        | some msgs2 =>
          let rest := runOllama oracle env groupId model fuel (iters + 1) msgs2
          ⟨callLog :: st.events ++ rest.events, st.dispatches ++ rest.dispatches,
           1 + rest.calls⟩
        | none => ⟨callLog :: st.events, st.dispatches, 1⟩

/-- `handleOllamaInvoke` of the App.tsx worker. -/
def handleOllamaInvoke (groupId : String) (messages : List ConversationMessage)
    (systemPrompt : String) (model : String) (_maxTokens : Nat)
    (oracle : Nat → Except String OllamaResult) (env : ToolEnv) : RunOut :=
  let ollamaMessages : List OllamaMsg :=
    ⟨"system", systemPrompt, none⟩ ::
      messages.map (fun m =>
        ⟨if m.role = "assistant" then "assistant" else "user", flatContent m, none⟩)
  runOllama oracle env groupId model AgentWorker.maxIterations 0 ollamaMessages

end AppWorker

-- ---------------------------------------------------------------------------
-- Trace predicates and concrete fixtures for witnesses/counterexamples
-- ---------------------------------------------------------------------------

/-- Is the event a `response` post? -/
def isRespEv : Event → Bool
  | .response _ _ => true
  | _ => false

/-- Is the event an `error` post? -/
def isErrEv : Event → Bool
  | .error _ _ => true
  | _ => false

/-- Is the event a `compact-done` post? -/
def isCompactEv : Event → Bool
  | .compactDone _ _ => true
  | _ => false

/-- Is the event a `tool-result` thinking-log entry? -/
def isToolResultLog : Event → Bool
  | .thinkingLog _ k _ _ => k == "tool-result"
  | _ => false

/-- Events that are neither `response` nor `error` posts. -/
def quiet : Event → Bool
  | .response _ _ => false
  | .error _ _ => false
  | _ => true

/-- Events a tool execution itself may post (only `task-created`). -/
def innerEv : Event → Bool
  | .taskCreated _ => true
  | _ => false

/-- Is the event a `text`-kind thinking-log entry? -/
def isTextLog : Event → Bool
  | .thinkingLog _ k _ _ => k == "text"
  | _ => false

/-- The `response` posts of a trace. -/
def respOf (evs : List Event) : List Event := evs.filter isRespEv

/-- The `error` posts of a trace. -/
def errsOf (evs : List Event) : List Event := evs.filter isErrEv

/-- The `compact-done` posts of a trace. -/
def compactsOf (evs : List Event) : List Event := evs.filter isCompactEv

/-- An Anthropic round trip that succeeded and asked for more tools. -/
def toolUseOk (x : Except String AnthropicResult) : Prop :=
  ∃ r, x = Except.ok r ∧ r.stop_reason = "tool_use"

/-- An Open WebUI round trip that succeeded and carried tool calls. -/
def oaToolRound (x : Except String OAResult) : Prop :=
  ∃ u c tcs, x = Except.ok ⟨u, some ⟨c, some tcs⟩⟩ ∧ tcs ≠ []

/-- An Ollama round trip that succeeded and carried tool calls. -/
def ollamaToolRound (x : Except String OllamaResult) : Prop :=
  ∃ c tcs pec ec, x = Except.ok ⟨some ⟨c, some tcs⟩, pec, ec⟩ ∧ tcs ≠ []

/-- A tool environment whose back-ends all succeed. -/
def env0 : ToolEnv :=
  ⟨fun _ _ _ => .ok ⟨"ok", "", 0⟩, fun _ _ => .ok "MEMO", fun _ _ _ => .ok (),
   fun _ _ => .ok [], fun _ _ _ _ => .ok ⟨200, "", "body", none⟩,
   fun _ => .ok (.prim "42"), "01HULID", 1700000000⟩

/-- A tool environment whose back-ends all throw with message `boom`. -/
def envFail : ToolEnv :=
  ⟨fun _ _ _ => .error "boom", fun _ _ => .error "boom", fun _ _ _ => .error "boom",
   fun _ _ => .error "boom", fun _ _ _ _ => .error "boom", fun _ => .error "boom",
   "01HULID", 1700000000⟩

/-- A tool environment holding a non-empty memory document `OLD NOTES`. -/
def envMem : ToolEnv :=
  ⟨fun _ _ _ => .ok ⟨"ok", "", 0⟩, fun _ _ => .ok "OLD NOTES", fun _ _ _ => .ok (),
   fun _ _ => .ok [], fun _ _ _ _ => .ok ⟨200, "", "body", none⟩,
   fun _ => .ok (.prim "42"), "01HULID", 1700000000⟩

/-- Auxiliary-fetch oracle that always fails. -/
def fetch0 : String → Except String AuxDoc := fun _ => .error "offline"

/-- Tool input carrying only a shell command. -/
def inputCmd : ToolInput :=
  ⟨some "ls", none, none, none, none, none, none, none, none, none, none, none⟩

/-- Tool input carrying only a path. -/
def inputPath : ToolInput :=
  ⟨none, none, some "notes.txt", none, none, none, none, none, none, none, none, none⟩

/-- Tool input for an append-mode memory update. -/
def inputAppend : ToolInput :=
  ⟨none, none, none, some "NEW", none, none, none, none, some "append", none, none, none⟩

/-- Tool input for a replace-mode memory update. -/
def inputReplace : ToolInput :=
  ⟨none, none, none, some "NEW", none, none, none, none, some "overwrite", none, none,
   none⟩

/-- An Anthropic reply requesting one `bash` tool call. -/
def anthToolReply : AnthropicResult :=
  ⟨none, [Block.tool_use "toolu_1" "bash" inputCmd], "tool_use"⟩

/-- A final Anthropic reply with usage counters and one text block. -/
def anthFinalReply : AnthropicResult :=
  ⟨some ⟨some 10, some 5, none, none⟩, [Block.text "hello"], "end_turn"⟩

/-- An Open WebUI reply carrying one `bash` tool call. -/
def oaToolReply : OAResult :=
  ⟨none, some ⟨some "", some [⟨"call_1", ⟨"bash", inputCmd⟩⟩]⟩⟩

/-- An Ollama reply carrying one `bash` tool call. -/
def ollamaToolReply : OllamaResult :=
  ⟨some ⟨some "", some [⟨"call_1", ⟨"bash", inputCmd⟩⟩]⟩, none, none⟩

/-- A final Ollama reply. -/
def ollamaFinalReply : OllamaResult :=
  ⟨some ⟨some "done", none⟩, some 3, some 4⟩

/-- Tool input for `update_memory` with the given mode and content. -/
def mkUpdateInput (m c : String) : ToolInput :=
  ⟨none, none, none, some c, none, none, none, none, some m, none, none, none⟩

/-- Round-trip oracle whose first call requests a tool and whose second call
fails (a non-success HTTP reply). -/
def c4oracle : Nat → Except String AnthropicResult :=
  fun n => if n = 1 then .ok anthToolReply
    else .error "Anthropic API error 500: overloaded"


-- ---------------------------------------------------------------------------
-- Theorems
-- ---------------------------------------------------------------------------

attribute [irreducible] fetchCase


-- Generic list/string helpers --------------------------------------------------

theorem filter_eq_nil_of_all {α} (l : List α) (p q : α → Bool) (h : l.all p = true)
    (hpq : ∀ a, p a = true → q a = false) : l.filter q = [] := by
  induction l with
  | nil => rfl
  | cons a l ih =>
    simp only [List.all_cons, Bool.and_eq_true] at h
    simp [List.filter_cons, hpq a h.1, ih h.2]

theorem countP_eq_zero_of_all {α} (l : List α) (p q : α → Bool) (h : l.all p = true)
    (hpq : ∀ a, p a = true → q a = false) : l.countP q = 0 := by
  induction l with
  | nil => rfl
  | cons a l ih =>
    simp only [List.all_cons, Bool.and_eq_true] at h
    simp [List.countP_cons, hpq a h.1, ih h.2]

theorem dataNeL (a b : String) (h : a.data ≠ []) : (a ++ b).data ≠ [] := by
  rw [String.data_append]
  intro hh
  exact h (List.append_eq_nil.mp hh).1

theorem dataNeR (a b : String) (h : b.data ≠ []) : (a ++ b).data ≠ [] := by
  rw [String.data_append]
  intro hh
  exact h (List.append_eq_nil.mp hh).2

theorem strNeOfData (a : String) (h : a.data ≠ []) : a ≠ "" := by
  intro heq
  exact h (by rw [heq])

-- Cron: humanization never yields the empty string on a non-empty cron --------

theorem cronToHuman_ne_empty (s : String) (h : s ≠ "") : cronToHuman s ≠ "" := by
  unfold cronToHuman
  split
  · repeat' split
    all_goals
      first
        | exact h
        | decide
        | (apply strNeOfData
           repeat apply dataNeL
           decide)
  · exact h

theorem buildCron_ne_empty (freq : ScheduleFrequency) (h m dw dm : Nat) :
    buildCron freq h m dw dm ≠ "" := by
  cases freq <;> simp only [buildCron] <;>
    first
      | decide
      | (apply strNeOfData; apply dataNeR; decide)
      | (apply strNeOfData; apply dataNeL; apply dataNeR; decide)

/-- C8: `cronToHuman` humanizes the Monday-9-AM cron and the 15-minute
interval cron to the expected fixed descriptions. -/
theorem C8_cron_scenarios :
    cronToHuman "0 9 * * 1" = "Every Monday at 9:00 AM" ∧
    cronToHuman "*/15 * * * *" = "Every 15 minutes" := by
  exact ⟨by decide, by decide⟩

/-- C9: for every enumerated `ScheduleFrequency` and valid picker arguments,
humanizing the built cron yields a non-empty string, and the composition is
stable (being a pure function, equal arguments give equal output). -/
theorem C9_humanize_nonempty (freq : ScheduleFrequency) (h m dw dm : Nat)
    (hh : h ≤ 23) (hm : m ≤ 59) (hdw : dw ≤ 6) (hdm1 : 1 ≤ dm) (hdm2 : dm ≤ 28) :
    cronToHuman (buildCron freq h m dw dm) ≠ "" ∧
    cronToHuman (buildCron freq h m dw dm) = cronToHuman (buildCron freq h m dw dm) := by
  exact ⟨cronToHuman_ne_empty _ (buildCron_ne_empty freq h m dw dm), rfl⟩

/-- Witness for C9 at the weekly frequency, Monday 9:00. -/
theorem C9_humanize_nonempty_witness :
    cronToHuman (buildCron ScheduleFrequency.weekly 9 0 1 1) ≠ "" ∧
    cronToHuman (buildCron ScheduleFrequency.weekly 9 0 1 1) =
      cronToHuman (buildCron ScheduleFrequency.weekly 9 0 1 1) :=
  C9_humanize_nonempty ScheduleFrequency.weekly 9 0 1 1 (by decide) (by decide)
    (by decide) (by decide) (by decide)

-- Sparkline: helper order facts ----------------------------------------------

theorem foldl_min_le_init (l : List ℚ) (a : ℚ) : l.foldl min a ≤ a := by
  induction l generalizing a with
  | nil => exact le_refl a
  | cons c cs ih => exact le_trans (ih (min a c)) (min_le_left a c)

theorem foldl_min_le_mem (l : List ℚ) (a x : ℚ) (hx : x ∈ l) : l.foldl min a ≤ x := by
  induction l generalizing a with
  | nil => cases hx
  | cons c cs ih =>
    rcases List.mem_cons.mp hx with h | h
    · subst h
      exact le_trans (foldl_min_le_init cs (min a x)) (min_le_right a x)
    · exact ih (min a c) h

theorem le_foldl_max_init (l : List ℚ) (a : ℚ) : a ≤ l.foldl max a := by
  induction l generalizing a with
  | nil => exact le_refl a
  | cons c cs ih => exact le_trans (le_max_left a c) (ih (max a c))

theorem le_foldl_max_mem (l : List ℚ) (a x : ℚ) (hx : x ∈ l) : x ≤ l.foldl max a := by
  induction l generalizing a with
  | nil => cases hx
  | cons c cs ih =>
    rcases List.mem_cons.mp hx with h | h
    · subst h
      exact le_trans (le_max_right a x) (le_foldl_max_init cs (max a x))
    · exact ih (max a c) h

theorem join_foldl_data (l : List String) (acc : String) :
    (l.foldl (fun r s => r ++ s) acc).data = acc.data ++ (l.map String.data).flatten := by
  induction l generalizing acc with
  | nil => simp
  | cons s rest ih =>
    simp only [List.foldl_cons, List.map_cons, List.flatten_cons]
    rw [ih (acc ++ s), String.data_append, List.append_assoc]

theorem join_data (l : List String) :
    (String.join l).data = (l.map String.data).flatten := by
  have h := join_foldl_data l ""
  simpa [String.join] using h

theorem sum_map_ones {α} (l : List α) (f : α → Nat) (h : ∀ x ∈ l, f x = 1) :
    (l.map f).sum = l.length := by
  induction l with
  | nil => rfl
  | cons a rest ih =>
    simp only [List.map_cons, List.sum_cons, List.length_cons,
      h a (List.mem_cons_self a rest)]
    rw [ih (fun x hx => h x (List.mem_cons_of_mem a hx))]
    omega

theorem sparkBlocks_shape :
    ∀ b ∈ sparkBlocks, b.data.length = 1 ∧ ∀ c ∈ b.data, c ∈ sparkChars := by
  decide

theorem sparkCell_mem (mn range v : ℚ) (hr : 0 < range) (h0 : 0 ≤ v - mn)
    (h1 : v - mn ≤ range) : sparkCell mn range v ∈ sparkBlocks := by
  have hx0 : (0 : ℚ) ≤ (v - mn) / range * 7 := by positivity
  have hx7 : (v - mn) / range * 7 ≤ 7 := by
    have hq : (v - mn) / range ≤ 1 := by rwa [div_le_one hr]
    nlinarith
  have hf0 : (0 : ℤ) ≤ Int.floor ((v - mn) / range * 7) := by
    exact Int.le_floor.mpr (by exact_mod_cast hx0)
  have hf7 : Int.floor ((v - mn) / range * 7) ≤ 7 := by
    have h := Int.floor_mono hx7
    rwa [show ((7 : ℚ)) = ((7 : ℤ) : ℚ) by norm_num, Int.floor_intCast] at h
  unfold sparkCell jsIdx
  rw [if_neg (by omega)]
  have hlt : (Int.floor ((v - mn) / range * 7)).toNat < sparkBlocks.length := by
    have : (Int.floor ((v - mn) / range * 7)).toNat ≤ 7 := by omega
    simp only [sparkBlocks, List.length_cons, List.length_nil]
    omega
  cases hget : sparkBlocks.get? (Int.floor ((v - mn) / range * 7)).toNat with
  | none => exact absurd (List.get?_eq_none.mp hget) (by omega)
  | some b =>
    simp only [hget, Option.getD_some]
    exact List.get?_mem hget

/-- C10: `makeSparkline` returns one character per input value, every
character is one of the eight block characters (the computed index always
lies in 0–7, including the all-equal case via `range = max - min || 1`), and
the empty list yields the empty string. -/
theorem C10_sparkline_shape :
    (∀ values : List ℚ, (makeSparkline values).length = values.length ∧
       ∀ c ∈ (makeSparkline values).data, c ∈ sparkChars) ∧
    makeSparkline ([] : List ℚ) = "" := by
  constructor
  · intro values
    match values with
    | [] => exact ⟨rfl, by intro c hc; cases hc⟩
    | v0 :: vs =>
      simp only [makeSparkline]
      set mn := vs.foldl min v0 with hmn
      set mx := vs.foldl max v0 with hmx
      set range := if mx - mn = 0 then 1 else mx - mn with hrange
      have hmnle : ∀ v ∈ v0 :: vs, mn ≤ v := by
        intro v hv
        rcases List.mem_cons.mp hv with h | h
        · subst h; exact foldl_min_le_init vs v
        · exact foldl_min_le_mem vs v0 v h
      have hlemx : ∀ v ∈ v0 :: vs, v ≤ mx := by
        intro v hv
        rcases List.mem_cons.mp hv with h | h
        · subst h; exact le_foldl_max_init vs v
        · exact le_foldl_max_mem vs v0 v h
      have hmm : mn ≤ mx :=
        le_trans (hmnle v0 (List.mem_cons_self v0 vs)) (hlemx v0 (List.mem_cons_self v0 vs))
      have hr : 0 < range := by
        rw [hrange]
        split
        · norm_num
        · rename_i hne
          have : mn ≠ mx := fun hc => hne (by rw [hc]; ring)
          have : mn < mx := lt_of_le_of_ne hmm this
          linarith
      have hcell : ∀ v ∈ v0 :: vs, sparkCell mn range v ∈ sparkBlocks := by
        intro v hv
        apply sparkCell_mem mn range v hr
        · have := hmnle v hv
          linarith
        · rw [hrange]
          split
          · rename_i hz
            have h1 := hlemx v hv
            have : v - mn ≤ mx - mn := by linarith
            rw [hz] at this
            linarith
          · have := hlemx v hv
            linarith
      constructor
      · show (String.join ((v0 :: vs).map (sparkCell mn range))).length = _
        have hdl : (String.join ((v0 :: vs).map (sparkCell mn range))).length =
            (String.join ((v0 :: vs).map (sparkCell mn range))).data.length := rfl
        rw [hdl, join_data, List.length_flatten]
        simp only [List.map_map]
        exact sum_map_ones (v0 :: vs) _ (fun v hv => (sparkBlocks_shape _ (hcell v hv)).1)
      · intro c hc
        rw [join_data] at hc
        rcases List.mem_flatten.mp hc with ⟨piece, hpiece, hcp⟩
        rcases List.mem_map.mp hpiece with ⟨s, hs, hseq⟩
        rcases List.mem_map.mp hs with ⟨v, hv, hveq⟩
        subst hseq hveq
        exact (sparkBlocks_shape _ (hcell v hv)).2 c hcp
  · rfl

/-- Witness for C10 at a concrete one-value series. -/
theorem C10_sparkline_shape_witness :
    (makeSparkline [(0 : ℚ)]).length = 1 ∧ '▁' ∈ sparkChars :=
  ⟨(C10_sparkline_shape.1 [(0 : ℚ)]).1,
   (C10_sparkline_shape.1 [(0 : ℚ)]).2 '▁'
     (by norm_num [makeSparkline, sparkCell, jsIdx, sparkBlocks, String.join])⟩

theorem AgentWorker.toolAction_inner (env : ToolEnv) (name : String)
    (input : ToolInput) (groupId : String) (t : ToolOut)
    (h : AgentWorker.toolAction env name input groupId = .ok t) :
    t.events.all innerEv = true := by
  unfold AgentWorker.toolAction at h
  by_cases h1 : name = "bash"
  · rw [if_pos h1] at h
    split at h
    · exact Except.noConfusion h
    · cases h; rfl
  rw [if_neg h1] at h
  by_cases h2 : name = "read_file"
  · rw [if_pos h2] at h
    split at h
    · exact Except.noConfusion h
    · cases h; rfl
  rw [if_neg h2] at h
  by_cases h3 : name = "write_file"
  · rw [if_pos h3] at h
    split at h
    · exact Except.noConfusion h
    · cases h; rfl
  rw [if_neg h3] at h
  by_cases h4 : name = "list_files"
  · rw [if_pos h4] at h
    split at h
    · exact Except.noConfusion h
    · cases h; rfl
  rw [if_neg h4] at h
  by_cases h5 : name = "fetch_url"
  · rw [if_pos h5] at h
    split at h
    · exact Except.noConfusion h
    · cases h; rfl
  rw [if_neg h5] at h
  by_cases h6 : name = "update_memory"
  · rw [if_pos h6] at h
    split at h
    · exact Except.noConfusion h
    · cases h; rfl
  rw [if_neg h6] at h
  by_cases h7 : name = "create_task"
  · rw [if_pos h7] at h
    cases h; rfl
  rw [if_neg h7] at h
  by_cases h8 : name = "javascript"
  · rw [if_pos h8] at h
    cases h; rfl
  rw [if_neg h8] at h
  cases h; rfl

theorem AppWorker.toolAction_inner_app (env : ToolEnv) (name : String)
    (input : ToolInput) (groupId : String) (t : ToolOut)
    (h : AppWorker.toolAction env name input groupId = .ok t) :
    t.events.all innerEv = true := by
  unfold AppWorker.toolAction at h
  by_cases h1 : name = "bash"
  · rw [if_pos h1] at h
    split at h
    · exact Except.noConfusion h
    · cases h; rfl
  rw [if_neg h1] at h
  by_cases h2 : name = "read_file"
  · rw [if_pos h2] at h
    split at h
    · exact Except.noConfusion h
    · cases h; rfl
  rw [if_neg h2] at h
  by_cases h3 : name = "write_file"
  · rw [if_pos h3] at h
    split at h
    · exact Except.noConfusion h
    · cases h; rfl
  rw [if_neg h3] at h
  by_cases h4 : name = "list_files"
  · rw [if_pos h4] at h
    split at h
    · exact Except.noConfusion h
    · cases h; rfl
  rw [if_neg h4] at h
  by_cases h5 : name = "fetch_url"
  · rw [if_pos h5] at h
    split at h
    · exact Except.noConfusion h
    · cases h; rfl
  rw [if_neg h5] at h
  by_cases h6 : name = "read_memory"
  · rw [if_pos h6] at h
    split at h
    · cases h; rfl
    · cases h; rfl
  rw [if_neg h6] at h
  by_cases h7 : name = "update_memory"
  · rw [if_pos h7] at h
    dsimp only at h
    iterate 3 (all_goals try split at h)
    all_goals first
      | exact Except.noConfusion h
      | (cases h; rfl)
  rw [if_neg h7] at h
  by_cases h8 : name = "create_task"
  · rw [if_pos h8] at h
    cases h; rfl
  rw [if_neg h8] at h
  by_cases h9 : name = "javascript"
  · rw [if_pos h9] at h
    cases h; rfl
  rw [if_neg h9] at h
  cases h; rfl

theorem AgentWorker.executeTool_inner (env : ToolEnv) (name : String)
    (input : ToolInput) (groupId : String) :
    (AgentWorker.executeTool env name input groupId).events.all innerEv = true := by
  unfold AgentWorker.executeTool
  split
  · rename_i t ht
    exact AgentWorker.toolAction_inner env name input groupId t ht
  · rfl

theorem AppWorker.executeTool_inner_app (env : ToolEnv) (name : String)
    (input : ToolInput) (groupId : String) :
    (AppWorker.executeTool env name input groupId).events.all innerEv = true := by
  unfold AppWorker.executeTool
  split
  · rename_i t ht
    exact AppWorker.toolAction_inner_app env name input groupId t ht
  · rfl

theorem strStartsWith_append (a b : String) : strStartsWith (a ++ b) a = true := by
  unfold strStartsWith
  rw [String.data_append]
  exact List.isPrefixOf_iff_prefix.mpr (List.prefix_append _ _)

/-- C2: `executeTool` never raises — it is a total function into strings — and
whenever the dispatched tool action throws (any `.error` of `toolAction`), the
call returns exactly `Tool error (<name>): <message>`, a string beginning with
`Tool error (`; hence a tool failure never crashes the tool-use loop. -/
theorem C2_tool_errors_contained (env : ToolEnv) (name : String) (input : ToolInput)
    (groupId e : String)
    (h : AgentWorker.toolAction env name input groupId = .error e) :
    (AgentWorker.executeTool env name input groupId).out =
      "Tool error (" ++ name ++ "): " ++ e ∧
    strStartsWith (AgentWorker.executeTool env name input groupId).out
      "Tool error (" = true := by
  have hout : (AgentWorker.executeTool env name input groupId).out =
      "Tool error (" ++ name ++ "): " ++ e := by
    unfold AgentWorker.executeTool
    rw [h]
  refine ⟨hout, ?_⟩
  rw [hout, String.append_assoc, String.append_assoc]
  exact strStartsWith_append _ _

/-- Witness for C2: a storage backend that throws `boom` on `read_file`. -/
theorem C2_tool_errors_contained_witness :
    (AgentWorker.executeTool envFail "read_file" inputPath "g").out =
      "Tool error (" ++ "read_file" ++ "): " ++ "boom" ∧
    strStartsWith (AgentWorker.executeTool envFail "read_file" inputPath "g").out
      "Tool error (" = true :=
  C2_tool_errors_contained envFail "read_file" inputPath "g" "boom" (by rfl)

/-- C5 counterexample: in the `agent-worker.ts` variant of `executeTool`, the
catalog name `read_memory` is not dispatched — it falls to the unknown-tool
fallback — and `update_memory` with mode `append` does not append: it writes
the new content only, replacing the existing `OLD NOTES` memory. -/
theorem C5_counterexample :
    (AgentWorker.executeTool envMem "read_memory" inputAppend "g").out =
      "Unknown tool: read_memory" ∧
    (AgentWorker.executeTool envMem "read_memory" inputAppend "g").writes = [] ∧
    (AgentWorker.executeTool envMem "update_memory" inputAppend "g").writes =
      [("CLAUDE.md", "NEW")] :=
  ⟨rfl, rfl, rfl⟩

/-- C5 (amended): in the App.tsx worker variant, every catalog name is handled
by its own `switch` case (never the unknown-tool fallback, which is exactly
the complement of `handledTools`); `read_memory` returns the memory document
content; `update_memory` with mode `append` appends to the existing document
(blank-line separated) while any other mode replaces it.  In the
`agent-worker.ts` variant `read_memory` is unhandled and `update_memory`
always replaces (see the counterexample). -/
theorem C5_tool_dispatch_amended (env : ToolEnv) (gid : String) (input : ToolInput)
    (name : String) (c newC : String)
    (hname : name ∈ toolCatalog)
    (hread : env.readGroupFile gid MEMORY_FILE = .ok c)
    (hc : c ≠ "")
    (hwA : env.writeGroupFile gid MEMORY_FILE (c ++ "\n\n" ++ newC) = .ok ())
    (hwR : env.writeGroupFile gid MEMORY_FILE newC = .ok ()) :
    name ∈ AppWorker.handledTools ∧
    (∀ nm, nm ∉ AppWorker.handledTools →
       AppWorker.executeTool env nm input gid = ⟨"Unknown tool: " ++ nm, [], []⟩) ∧
    (AppWorker.executeTool env "read_memory" input gid).out = c ∧
    (AppWorker.executeTool env "update_memory" (mkUpdateInput "append" newC) gid).writes =
      [(MEMORY_FILE, c ++ "\n\n" ++ newC)] ∧
    (∀ m, m ≠ "append" →
       (AppWorker.executeTool env "update_memory" (mkUpdateInput m newC) gid).writes =
         [(MEMORY_FILE, newC)]) := by
  refine ⟨?_, ?_, ?_, ?_, ?_⟩
  · fin_cases hname <;> decide
  · intro nm hnm
    simp only [AppWorker.handledTools, List.mem_cons, List.not_mem_nil, or_false] at hnm
    push_neg at hnm
    obtain ⟨n1, n2, n3, n4, n5, n6, n7, n8, n9⟩ := hnm
    have hta : AppWorker.toolAction env nm input gid =
        .ok ⟨"Unknown tool: " ++ nm, [], []⟩ := by
      unfold AppWorker.toolAction
      rw [if_neg n1, if_neg n2, if_neg n3, if_neg n4, if_neg n5, if_neg n6, if_neg n7,
        if_neg n8, if_neg n9]
    unfold AppWorker.executeTool
    rw [hta]
  · have h0 : AppWorker.toolAction env "read_memory" input gid =
        (match env.readGroupFile gid MEMORY_FILE with
         | .ok cc => .ok ⟨if cc = "" then "(Memory file is empty)" else cc, [], []⟩
         | .error _ =>
           .ok ⟨"(No memory file exists yet. Use update_memory to create one.)", [],
               []⟩) := rfl
    unfold AppWorker.executeTool
    rw [h0, hread]
    dsimp only
    rw [if_neg hc]
  · have h0 : AppWorker.toolAction env "update_memory" (mkUpdateInput "append" newC) gid =
        (let existing :=
           match env.readGroupFile gid MEMORY_FILE with
           | .ok cc => cc
           | .error _ => ""
         let separator := if existing ≠ "" then "\n\n" else ""
         match env.writeGroupFile gid MEMORY_FILE (existing ++ separator ++ newC) with
         | .error e => .error e
         | .ok _ =>
           .ok ⟨"Memory updated successfully.", [],
               [(MEMORY_FILE, existing ++ separator ++ newC)]⟩) := rfl
    unfold AppWorker.executeTool
    rw [h0, hread]
    dsimp only
    rw [if_pos hc]
    rw [hwA]
  · intro m hm
    have hmode : jsOrStr (some m) "replace" ≠ "append" := by
      show (if m = "" then "replace" else m) ≠ "append"
      split
      · decide
      · exact hm
    have h0 : AppWorker.toolAction env "update_memory" (mkUpdateInput m newC) gid =
        (if jsOrStr (some m) "replace" = "append" then
           let existing :=
             match env.readGroupFile gid MEMORY_FILE with
             | .ok cc => cc
             | .error _ => ""
           let separator := if existing ≠ "" then "\n\n" else ""
           match env.writeGroupFile gid MEMORY_FILE (existing ++ separator ++ newC) with
           | .error e => .error e
           | .ok _ =>
             .ok ⟨"Memory updated successfully.", [],
                 [(MEMORY_FILE, existing ++ separator ++ newC)]⟩
         else
           match env.writeGroupFile gid MEMORY_FILE newC with
           | .error e => .error e
           | .ok _ => .ok ⟨"Memory updated successfully.", [], [(MEMORY_FILE, newC)]⟩) := rfl
    unfold AppWorker.executeTool
    rw [h0, if_neg hmode, hwR]

/-- Witness for C5 (amended) on a storage with memory `OLD NOTES`. -/
theorem C5_tool_dispatch_amended_witness :
    "read_memory" ∈ AppWorker.handledTools ∧
    (∀ nm, nm ∉ AppWorker.handledTools →
       AppWorker.executeTool envMem nm inputCmd "g" = ⟨"Unknown tool: " ++ nm, [], []⟩) ∧
    (AppWorker.executeTool envMem "read_memory" inputCmd "g").out = "OLD NOTES" ∧
    (AppWorker.executeTool envMem "update_memory" (mkUpdateInput "append" "NEW") "g").writes =
      [(MEMORY_FILE, "OLD NOTES" ++ "\n\n" ++ "NEW")] ∧
    (∀ m, m ≠ "append" →
       (AppWorker.executeTool envMem "update_memory" (mkUpdateInput m "NEW") "g").writes =
         [(MEMORY_FILE, "NEW")]) :=
  C5_tool_dispatch_amended envMem "g" inputCmd "read_memory" "OLD NOTES" "NEW"
    (by decide) (by rfl) (by decide) (by rfl) (by rfl)

theorem all_imp {α} (l : List α) (p q : α → Bool) (h : l.all p = true)
    (hpq : ∀ a, p a = true → q a = true) : l.all q = true := by
  induction l with
  | nil => rfl
  | cons a l ih =>
    simp only [List.all_cons, Bool.and_eq_true] at h ⊢
    exact ⟨hpq a h.1, ih h.2⟩

theorem innerEv_quiet (e : Event) (h : innerEv e = true) : quiet e = true := by
  cases e <;> simp_all [innerEv, quiet]

theorem innerEv_trlog (e : Event) (h : innerEv e = true) : isToolResultLog e = false := by
  cases e <;> simp_all [innerEv, isToolResultLog]

theorem quiet_resp (e : Event) (h : quiet e = true) : isRespEv e = false := by
  cases e <;> simp_all [quiet, isRespEv]

theorem quiet_err (e : Event) (h : quiet e = true) : isErrEv e = false := by
  cases e <;> simp_all [quiet, isErrEv]

theorem usageEvents_quiet (gid model : String) (u : Option Usage) :
    (usageEvents gid model u).all quiet = true := by
  cases u <;> rfl

theorem usageEvents_trcount (gid model : String) (u : Option Usage) :
    (usageEvents gid model u).countP isToolResultLog = 0 := by
  cases u <;> rfl

theorem textLogs_all (gid : String) (bs : List Block) :
    (textLogs gid bs).all isTextLog = true := by
  induction bs with
  | nil => rfl
  | cons b bs ih =>
    cases b with
    | text s =>
      simp only [textLogs, List.all_append, Bool.and_eq_true]
      refine ⟨?_, ih⟩
      split <;> rfl
    | tool_use id name input => exact ih
    | other => exact ih

theorem isTextLog_quiet (e : Event) (h : isTextLog e = true) : quiet e = true := by
  cases e <;> simp_all [isTextLog, quiet]

theorem isTextLog_trlog (e : Event) (h : isTextLog e = true) :
    isToolResultLog e = false := by
  cases e with
  | thinkingLog gid k label detail =>
    simp only [isTextLog] at h
    simp only [isToolResultLog]
    have : k = "text" := by simpa using h
    subst this
    decide
  | _ => rfl
  

theorem AgentWorker.execBlocks_quiet (env : ToolEnv) (gid : String) (bs : List Block) :
    (AgentWorker.execBlocks env gid bs).events.all quiet = true := by
  induction bs with
  | nil => rfl
  | cons b bs ih =>
    cases b with
    | tool_use id name input =>
      have hinner := all_imp _ innerEv quiet
        (AgentWorker.executeTool_inner env name input gid) innerEv_quiet
      simp [AgentWorker.execBlocks, List.all_append, hinner, ih, quiet, logEv]
    | text s => exact ih
    | other => exact ih

theorem AgentWorker.execBlocks_dispatches (env : ToolEnv) (gid : String)
    (bs : List Block) :
    (AgentWorker.execBlocks env gid bs).dispatches =
      (toolUses bs).map (fun t => (t.2.1, t.2.2)) := by
  induction bs with
  | nil => rfl
  | cons b bs ih => cases b <;> simp [AgentWorker.execBlocks, toolUses, ih]

theorem AgentWorker.execBlocks_results (env : ToolEnv) (gid : String)
    (bs : List Block) :
    (AgentWorker.execBlocks env gid bs).results =
      (toolUses bs).map (fun t =>
        ⟨t.1, (AgentWorker.executeTool env t.2.1 t.2.2 gid).out.take 100000⟩) := by
  induction bs with
  | nil => rfl
  | cons b bs ih => cases b <;> simp [AgentWorker.execBlocks, toolUses, ih]

theorem AgentWorker.execBlocks_trcount (env : ToolEnv) (gid : String)
    (bs : List Block) :
    (AgentWorker.execBlocks env gid bs).events.countP isToolResultLog =
      (toolUses bs).length := by
  induction bs with
  | nil => rfl
  | cons b bs ih =>
    cases b with
    | tool_use id name input =>
      have hz := countP_eq_zero_of_all _ innerEv isToolResultLog
        (AgentWorker.executeTool_inner env name input gid) innerEv_trlog
      simp [AgentWorker.execBlocks, toolUses, List.countP_append, List.countP_cons,
        hz, ih, isToolResultLog, logEv]
    | text s => exact ih
    | other => exact ih

theorem AgentWorker.processResult_tool (env : ToolEnv)
    (fetchO : String → Except String AuxDoc) (gid model : String)
    (msgs : List ConversationMessage) (r : AnthropicResult)
    (h : r.stop_reason = "tool_use") :
    (AgentWorker.processResult env fetchO gid model msgs r).events.all quiet = true ∧
    (AgentWorker.processResult env fetchO gid model msgs r).dispatches =
      (toolUses r.content).map (fun t => (t.2.1, t.2.2)) ∧
    (AgentWorker.processResult env fetchO gid model msgs r).next =
      some (msgs ++
        [⟨"assistant", .blocks r.content⟩,
         ⟨"user", .toolResults (AgentWorker.execBlocks env gid r.content).results⟩]) ∧
    (AgentWorker.processResult env fetchO gid model msgs r).events.countP
        isToolResultLog = (toolUses r.content).length := by
  unfold AgentWorker.processResult
  rw [if_pos h]
  dsimp only
  have ht := all_imp _ isTextLog quiet (textLogs_all gid r.content) isTextLog_quiet
  have htc := countP_eq_zero_of_all _ isTextLog isToolResultLog
    (textLogs_all gid r.content) isTextLog_trlog
  refine ⟨?_, ?_, rfl, ?_⟩
  · simp [List.all_append, usageEvents_quiet, ht, AgentWorker.execBlocks_quiet, quiet]
  · exact AgentWorker.execBlocks_dispatches env gid r.content
  · simp [List.countP_append, usageEvents_trcount, htc,
      AgentWorker.execBlocks_trcount, isToolResultLog]

theorem AgentWorker.processResult_final (env : ToolEnv)
    (fetchO : String → Except String AuxDoc) (gid model : String)
    (msgs : List ConversationMessage) (r : AnthropicResult)
    (h : ¬ r.stop_reason = "tool_use") :
    (AgentWorker.processResult env fetchO gid model msgs r).next = none := by
  unfold AgentWorker.processResult
  rw [if_neg h]

theorem AgentWorker.runAnthropic_calls_le (oracle : Nat → Except String AnthropicResult)
    (env : ToolEnv) (fetchO : String → Except String AuxDoc) (gid model : String) :
    ∀ fuel iters msgs,
      (AgentWorker.runAnthropic oracle env fetchO gid model fuel iters msgs).calls ≤
        fuel := by
  intro fuel
  induction fuel with
  | zero => intro iters msgs; exact Nat.le_refl 0
  | succ fuel ih =>
    intro iters msgs
    simp only [AgentWorker.runAnthropic]
    cases horacle : oracle (iters + 1) with
    | error e => simp
    | ok r =>
      dsimp only
      cases hnext : (AgentWorker.processResult env fetchO gid model msgs r).next with
      | some msgs2 =>
        dsimp only
        have := ih (iters + 1) msgs2
        omega
      | none => simp

theorem AgentWorker.runAnthropic_alltool (oracle : Nat → Except String AnthropicResult)
    (env : ToolEnv) (fetchO : String → Except String AuxDoc) (gid model : String) :
    ∀ fuel iters msgs,
      (∀ n, iters < n → n ≤ iters + fuel → toolUseOk (oracle n)) →
      respOf (AgentWorker.runAnthropic oracle env fetchO gid model fuel iters
          msgs).events =
        [Event.response gid AgentWorker.maxIterationsText] ∧
      (AgentWorker.runAnthropic oracle env fetchO gid model fuel iters msgs).calls =
        fuel := by
  intro fuel
  induction fuel with
  | zero => intro iters msgs _; exact ⟨rfl, rfl⟩
  | succ fuel ih =>
    intro iters msgs h
    obtain ⟨r, hor, hstop⟩ := h (iters + 1) (by omega) (by omega)
    simp only [AgentWorker.runAnthropic, hor]
    obtain ⟨hquiet, _, hnext, _⟩ :=
      AgentWorker.processResult_tool env fetchO gid model msgs r hstop
    rw [hnext]
    dsimp only
    have hrest := ih (iters + 1)
      (msgs ++
        [⟨"assistant", .blocks r.content⟩,
         ⟨"user", .toolResults (AgentWorker.execBlocks env gid r.content).results⟩])
      (fun n h1 h2 => h n (by omega) (by omega))
    constructor
    · simp only [respOf, List.filter_cons, List.filter_append]
      have hnil : (AgentWorker.processResult env fetchO gid model msgs r).events.filter
          isRespEv = [] :=
        filter_eq_nil_of_all _ quiet isRespEv hquiet quiet_resp
      simp only [respOf] at hrest
      simp [hnil, hrest.1, logEv, isRespEv]
    · simp [hrest.2]
      omega

theorem AgentWorker.runAnthropic_error (oracle : Nat → Except String AnthropicResult)
    (env : ToolEnv) (fetchO : String → Except String AuxDoc) (gid model : String)
    (k : Nat) (e : String) (herr : oracle k = .error e) :
    ∀ fuel iters msgs,
      iters < k → k ≤ iters + fuel →
      (∀ j, iters < j → j < k → toolUseOk (oracle j)) →
      errsOf (AgentWorker.runAnthropic oracle env fetchO gid model fuel iters
          msgs).events = [Event.error gid e] ∧
      respOf (AgentWorker.runAnthropic oracle env fetchO gid model fuel iters
          msgs).events = [] ∧
      (AgentWorker.runAnthropic oracle env fetchO gid model fuel iters msgs).calls =
        k - iters := by
  intro fuel
  induction fuel with
  | zero => intro iters msgs h1 h2 _; exact ((by omega : False)).elim
  | succ fuel ih =>
    intro iters msgs h1 h2 hb
    by_cases hk : iters + 1 = k
    · simp only [AgentWorker.runAnthropic, hk, herr]
      refine ⟨?_, ?_, by omega⟩
      · simp [errsOf, isErrEv, logEv]
      · simp [respOf, isRespEv, logEv]
    · have h1x : iters + 1 < k := by omega
      obtain ⟨r, hor, hstop⟩ := hb (iters + 1) (by omega) h1x
      simp only [AgentWorker.runAnthropic, hor]
      obtain ⟨hquiet, _, hnext, _⟩ :=
        AgentWorker.processResult_tool env fetchO gid model msgs r hstop
      rw [hnext]
      dsimp only
      have hrest := ih (iters + 1)
        (msgs ++
          [⟨"assistant", .blocks r.content⟩,
           ⟨"user", .toolResults (AgentWorker.execBlocks env gid r.content).results⟩])
        h1x (by omega) (fun j hj1 hj2 => hb j (by omega) hj2)
      have hniler : (AgentWorker.processResult env fetchO gid model msgs r).events.filter
          isErrEv = [] :=
        filter_eq_nil_of_all _ quiet isErrEv hquiet quiet_err
      have hnilresp : (AgentWorker.processResult env fetchO gid model msgs
          r).events.filter isRespEv = [] :=
        filter_eq_nil_of_all _ quiet isRespEv hquiet quiet_resp
      refine ⟨?_, ?_, ?_⟩
      · simp only [errsOf, List.filter_cons, List.filter_append] at hrest ⊢
        simp [hniler, hrest.1, logEv, isErrEv]
      · simp only [respOf, List.filter_cons, List.filter_append] at hrest ⊢
        simp [hnilresp, hrest.2.1, logEv, isRespEv]
      · simp only at hrest ⊢
        have := hrest.2.2
        simp [this]
        omega

/-- C1: for every invocation, the Anthropic loop issues at most 25 provider
round trips (for any oracle), and when all 25 round trips return `tool_use`
(no final answer), the only `response` posted is exactly the fixed cautionary
text, after exactly 25 calls. -/
theorem C1_iteration_ceiling (gid sp key model : String) (mt : Nat)
    (msgs : List ConversationMessage) (oracle : Nat → Except String AnthropicResult)
    (env : ToolEnv) (fetchO : String → Except String AuxDoc)
    (hAll : ∀ n, 1 ≤ n → n ≤ 25 → toolUseOk (oracle n)) :
    (∀ o2 : Nat → Except String AnthropicResult,
       (AgentWorker.handleAnthropicInvoke gid msgs sp key model mt o2 env
           fetchO).calls ≤ 25) ∧
    respOf (AgentWorker.handleAnthropicInvoke gid msgs sp key model mt oracle env
        fetchO).events = [Event.response gid AgentWorker.maxIterationsText] ∧
    (AgentWorker.handleAnthropicInvoke gid msgs sp key model mt oracle env
        fetchO).calls = 25 := by
  have hrun := AgentWorker.runAnthropic_alltool oracle env fetchO gid model 25 0 msgs
    (fun n h1 h2 => hAll n (by omega) (by omega))
  exact ⟨fun o2 => AgentWorker.runAnthropic_calls_le o2 env fetchO gid model 25 0 msgs,
    hrun.1, hrun.2⟩

/-- Witness for C1: an oracle that always requests another `bash` call. -/
theorem C1_iteration_ceiling_witness :
    (∀ o2 : Nat → Except String AnthropicResult,
       (AgentWorker.handleAnthropicInvoke "g" [] "sys" "key" "m" 100 o2 env0
           fetch0).calls ≤ 25) ∧
    respOf (AgentWorker.handleAnthropicInvoke "g" [] "sys" "key" "m" 100
        (fun _ => .ok anthToolReply) env0 fetch0).events =
      [Event.response "g" AgentWorker.maxIterationsText] ∧
    (AgentWorker.handleAnthropicInvoke "g" [] "sys" "key" "m" 100
        (fun _ => .ok anthToolReply) env0 fetch0).calls = 25 :=
  C1_iteration_ceiling "g" "sys" "key" "m" 100 [] (fun _ => .ok anthToolReply) env0
    fetch0 (fun n _ _ => ⟨anthToolReply, rfl, rfl⟩)

/-- C4: if round trip `k ≤ 25` fails while all earlier round trips requested
tools, the loop aborts at once: exactly one `error` event carrying the failure
message, no `response` event, and exactly `k` provider calls (no retry). -/
theorem C4_provider_error_aborts (gid sp key model : String) (mt : Nat)
    (msgs : List ConversationMessage) (oracle : Nat → Except String AnthropicResult)
    (env : ToolEnv) (fetchO : String → Except String AuxDoc) (k : Nat) (e : String)
    (hk1 : 1 ≤ k) (hk2 : k ≤ 25)
    (hbefore : ∀ j, 1 ≤ j → j < k → toolUseOk (oracle j))
    (herr : oracle k = .error e) :
    errsOf (AgentWorker.handleAnthropicInvoke gid msgs sp key model mt oracle env
        fetchO).events = [Event.error gid e] ∧
    respOf (AgentWorker.handleAnthropicInvoke gid msgs sp key model mt oracle env
        fetchO).events = [] ∧
    (AgentWorker.handleAnthropicInvoke gid msgs sp key model mt oracle env
        fetchO).calls = k := by
  have h := AgentWorker.runAnthropic_error oracle env fetchO gid model k e herr 25 0
    msgs (by omega) (by omega) (fun j hj1 hj2 => hbefore j (by omega) hj2)
  simpa using h

/-- Witness for C4: the second round trip returns HTTP 500. -/
theorem C4_provider_error_aborts_witness :
    errsOf (AgentWorker.handleAnthropicInvoke "g" [] "sys" "key" "m" 100 c4oracle env0
        fetch0).events = [Event.error "g" "Anthropic API error 500: overloaded"] ∧
    respOf (AgentWorker.handleAnthropicInvoke "g" [] "sys" "key" "m" 100 c4oracle env0
        fetch0).events = [] ∧
    (AgentWorker.handleAnthropicInvoke "g" [] "sys" "key" "m" 100 c4oracle env0
        fetch0).calls = 2 :=
  C4_provider_error_aborts "g" "sys" "key" "m" 100 [] c4oracle env0 fetch0 2
    "Anthropic API error 500: overloaded" (by omega) (by omega)
    (fun j h1 h2 => by
      have hj : j = 1 := by omega
      subst hj
      exact ⟨anthToolReply, rfl, rfl⟩)
    (by rfl)

/-- C7: on a `tool_use` reply containing exactly one tool block, the Tool
Executor is dispatched exactly once with that block's input, exactly one
`tool-result` log entry is emitted, and the working message list grows by
exactly the assistant tool-request turn followed by the synthetic tool-result
turn, in that order, with the earlier entries unchanged — and the loop
continues to the next round trip. -/
theorem C7_single_tool_round (env : ToolEnv) (fetchO : String → Except String AuxDoc)
    (gid model : String) (msgs : List ConversationMessage) (r : AnthropicResult)
    (id name : String) (input : ToolInput)
    (h1 : r.stop_reason = "tool_use")
    (h2 : toolUses r.content = [(id, name, input)]) :
    (AgentWorker.processResult env fetchO gid model msgs r).dispatches =
      [(name, input)] ∧
    (AgentWorker.processResult env fetchO gid model msgs r).events.countP
        isToolResultLog = 1 ∧
    (AgentWorker.processResult env fetchO gid model msgs r).next =
      some (msgs ++
        [⟨"assistant", .blocks r.content⟩,
         ⟨"user", .toolResults
            [⟨id, (AgentWorker.executeTool env name input gid).out.take 100000⟩]⟩]) := by
  obtain ⟨hq, hd, hn, hc⟩ :=
    AgentWorker.processResult_tool env fetchO gid model msgs r h1
  refine ⟨?_, ?_, ?_⟩
  · rw [hd, h2]
    rfl
  · rw [hc, h2]
    rfl
  · rw [hn, AgentWorker.execBlocks_results, h2]
    rfl

/-- Witness for C7 on the one-block `bash` reply. -/
theorem C7_single_tool_round_witness :
    (AgentWorker.processResult env0 fetch0 "g" "m" [] anthToolReply).dispatches =
      [("bash", inputCmd)] ∧
    (AgentWorker.processResult env0 fetch0 "g" "m" [] anthToolReply).events.countP
        isToolResultLog = 1 ∧
    (AgentWorker.processResult env0 fetch0 "g" "m" [] anthToolReply).next =
      some
        [⟨"assistant", .blocks anthToolReply.content⟩,
         ⟨"user", .toolResults
            [⟨"toolu_1",
              (AgentWorker.executeTool env0 "bash" inputCmd "g").out.take 100000⟩]⟩] :=
  C7_single_tool_round env0 fetch0 "g" "m" [] anthToolReply "toolu_1" "bash" inputCmd
    rfl rfl

/-- C6: an Ollama or Open WebUI compact request performs no provider call and
posts a `compact-done` whose summary is exactly
`Compaction not yet supported for <provider>`; only the Anthropic path makes
an actual summarization call. -/
theorem C6_compact_unsupported (gid provider : String)
    (msgs : List ConversationMessage) (oracleA : Except String AnthropicResult)
    (h : provider = "ollama" ∨ provider = "openwebui") :
    (AgentWorker.handleCompact gid provider msgs oracleA).calls = 0 ∧
    compactsOf (AgentWorker.handleCompact gid provider msgs oracleA).events =
      [Event.compactDone gid ("Compaction not yet supported for " ++ provider)] ∧
    (AgentWorker.handleCompact gid "anthropic" msgs oracleA).calls = 1 := by
  refine ⟨?_, ?_, ?_⟩
  · unfold AgentWorker.handleCompact
    rw [if_pos h]
  · unfold AgentWorker.handleCompact
    rw [if_pos h]
    simp [compactsOf, isCompactEv, logEv]
  · unfold AgentWorker.handleCompact
    rw [if_neg (by decide)]
    cases oracleA <;> rfl

/-- Witness for C6 with provider `ollama`. -/
theorem C6_compact_unsupported_witness :
    (AgentWorker.handleCompact "g" "ollama" [] (.ok anthFinalReply)).calls = 0 ∧
    compactsOf (AgentWorker.handleCompact "g" "ollama" [] (.ok anthFinalReply)).events =
      [Event.compactDone "g" ("Compaction not yet supported for " ++ "ollama")] ∧
    (AgentWorker.handleCompact "g" "anthropic" [] (.ok anthFinalReply)).calls = 1 :=
  C6_compact_unsupported "g" "ollama" [] (.ok anthFinalReply) (Or.inl rfl)

theorem AppWorker.execToolCalls_quiet (env : ToolEnv) (gid : String)
    (tcs : List OAToolCall) :
    (AppWorker.execToolCalls env gid tcs).events.all quiet = true := by
  induction tcs with
  | nil => rfl
  | cons tc tcs ih =>
    have hinner := all_imp _ innerEv quiet
      (AppWorker.executeTool_inner_app env tc.function.name tc.function.arguments gid)
      innerEv_quiet
    simp [AppWorker.execToolCalls, List.all_append, hinner, ih, quiet, logEv]

theorem AppWorker.execToolCalls_dispatches (env : ToolEnv) (gid : String)
    (tcs : List OAToolCall) :
    (AppWorker.execToolCalls env gid tcs).dispatches =
      tcs.map (fun tc => (tc.function.name, tc.function.arguments)) := by
  induction tcs with
  | nil => rfl
  | cons tc tcs ih => simp [AppWorker.execToolCalls, ih]

theorem AppWorker.processOAResult_tool_eq (env : ToolEnv) (gid model : String)
    (msgs : List OAMsg) (u : Option OAUsage) (c : Option String)
    (tcs : List OAToolCall) (hne : tcs ≠ []) :
    AppWorker.processOAResult env gid model msgs ⟨u, some ⟨c, some tcs⟩⟩ =
      .ok ⟨(match u with
            | some uu =>
              [Event.tokenUsage gid (uu.prompt_tokens.getD 0)
                (uu.completion_tokens.getD 0) 0 0 (getContextLimit model)]
            | none => []) ++ (AppWorker.execToolCalls env gid tcs).events ++
            [Event.typing gid],
          (AppWorker.execToolCalls env gid tcs).dispatches,
          some (msgs ++ [⟨"assistant", jsOrNull c, some tcs, none⟩] ++
            (AppWorker.execToolCalls env gid tcs).results.map
              (fun pr => ⟨"tool", some pr.2, none, some pr.1⟩))⟩ := by
  unfold AppWorker.processOAResult
  dsimp only
  rw [if_pos hne]

theorem AppWorker.processOllamaResult_tool_eq (env : ToolEnv) (gid model : String)
    (msgs : List OllamaMsg) (c : Option String) (tcs : List OAToolCall)
    (pec ec : Option Nat) (hne : tcs ≠ []) :
    AppWorker.processOllamaResult env gid model msgs ⟨some ⟨c, some tcs⟩, pec, ec⟩ =
      .ok ⟨(match pec with
            | some p =>
              [Event.tokenUsage gid p (ec.getD 0) 0 0 (getContextLimit model)]
            | none => []) ++ (AppWorker.execToolCalls env gid tcs).events ++
            [Event.typing gid],
          (AppWorker.execToolCalls env gid tcs).dispatches,
          some (msgs ++ [⟨"assistant", c.getD "", some tcs⟩] ++
            (AppWorker.execToolCalls env gid tcs).results.map
              (fun pr => ⟨"tool", pr.2, none⟩))⟩ := by
  unfold AppWorker.processOllamaResult
  dsimp only
  rw [if_pos hne]

theorem AppWorker.runOpenWebUI_calls_le (oracle : Nat → Except String OAResult)
    (env : ToolEnv) (gid model : String) :
    ∀ fuel iters msgs,
      (AppWorker.runOpenWebUI oracle env gid model fuel iters msgs).calls ≤ fuel := by
  intro fuel
  induction fuel with
  | zero => intro iters msgs; exact Nat.le_refl 0
  | succ fuel ih =>
    intro iters msgs
    simp only [AppWorker.runOpenWebUI]
    cases horacle : oracle (iters + 1) with
    | error e => simp
    | ok r =>
      dsimp only
      cases hst : AppWorker.processOAResult env gid model msgs r with
      | error e => simp
      | ok st =>
        dsimp only
        cases hnext : st.next with
        | some msgs2 =>
          dsimp only
          have := ih (iters + 1) msgs2
          omega
        | none => simp

theorem AppWorker.runOllama_calls_le (oracle : Nat → Except String OllamaResult)
    (env : ToolEnv) (gid model : String) :
    ∀ fuel iters msgs,
      (AppWorker.runOllama oracle env gid model fuel iters msgs).calls ≤ fuel := by
  intro fuel
  induction fuel with
  | zero => intro iters msgs; exact Nat.le_refl 0
  | succ fuel ih =>
    intro iters msgs
    simp only [AppWorker.runOllama]
    cases horacle : oracle (iters + 1) with
    | error e => simp
    | ok r =>
      dsimp only
      cases hst : AppWorker.processOllamaResult env gid model msgs r with
      | error e => simp
      | ok st =>
        dsimp only
        cases hnext : st.next with
        | some msgs2 =>
          dsimp only
          have := ih (iters + 1) msgs2
          omega
        | none => simp

theorem AppWorker.runOpenWebUI_alltool (oracle : Nat → Except String OAResult)
    (env : ToolEnv) (gid model : String) :
    ∀ fuel iters msgs,
      (∀ n, iters < n → n ≤ iters + fuel → oaToolRound (oracle n)) →
      respOf (AppWorker.runOpenWebUI oracle env gid model fuel iters msgs).events =
        [Event.response gid AgentWorker.maxIterationsText] ∧
      (AppWorker.runOpenWebUI oracle env gid model fuel iters msgs).calls = fuel := by
  intro fuel
  induction fuel with
  | zero => intro iters msgs _; exact ⟨rfl, rfl⟩
  | succ fuel ih =>
    intro iters msgs h
    obtain ⟨u, c, tcs, hor, hne⟩ := h (iters + 1) (by omega) (by omega)
    simp only [AppWorker.runOpenWebUI, hor]
    rw [AppWorker.processOAResult_tool_eq env gid model msgs u c tcs hne]
    dsimp only
    have hrest := ih (iters + 1)
      (msgs ++ ⟨"assistant", jsOrNull c, some tcs, none⟩ ::
        (AppWorker.execToolCalls env gid tcs).results.map
          (fun pr => ⟨"tool", some pr.2, none, some pr.1⟩))
      (fun n h1 h2 => h n (by omega) (by omega))
    have h2 := filter_eq_nil_of_all _ quiet isRespEv
      (AppWorker.execToolCalls_quiet env gid tcs) quiet_resp
    constructor
    · simp only [respOf, List.filter_cons, List.filter_append] at hrest ⊢
      cases u <;> simp [h2, hrest.1, logEv, isRespEv]
    · simp [hrest.2]
      omega

theorem AppWorker.runOllama_alltool (oracle : Nat → Except String OllamaResult)
    (env : ToolEnv) (gid model : String) :
    ∀ fuel iters msgs,
      (∀ n, iters < n → n ≤ iters + fuel → ollamaToolRound (oracle n)) →
      respOf (AppWorker.runOllama oracle env gid model fuel iters msgs).events =
        [Event.response gid AgentWorker.maxIterationsText] ∧
      (AppWorker.runOllama oracle env gid model fuel iters msgs).calls = fuel := by
  intro fuel
  induction fuel with
  | zero => intro iters msgs _; exact ⟨rfl, rfl⟩
  | succ fuel ih =>
    intro iters msgs h
    obtain ⟨c, tcs, pec, ec, hor, hne⟩ := h (iters + 1) (by omega) (by omega)
    simp only [AppWorker.runOllama, hor]
    rw [AppWorker.processOllamaResult_tool_eq env gid model msgs c tcs pec ec hne]
    dsimp only
    have hrest := ih (iters + 1)
      (msgs ++ ⟨"assistant", c.getD "", some tcs⟩ ::
        (AppWorker.execToolCalls env gid tcs).results.map
          (fun pr => ⟨"tool", pr.2, none⟩))
      (fun n h1 h2 => h n (by omega) (by omega))
    have h2 := filter_eq_nil_of_all _ quiet isRespEv
      (AppWorker.execToolCalls_quiet env gid tcs) quiet_resp
    constructor
    · simp only [respOf, List.filter_cons, List.filter_append] at hrest ⊢
      cases pec <;> simp [h2, hrest.1, logEv, isRespEv]
    · simp [hrest.2]
      omega

theorem AgentWorker.handleOpenWebUIInvoke_single (gid : String)
    (msgs : List ConversationMessage) (sp model : String) (mt : Nat)
    (oracle : Except String OAResult) :
    (AgentWorker.handleOpenWebUIInvoke gid msgs sp model mt oracle).calls = 1 ∧
    (AgentWorker.handleOpenWebUIInvoke gid msgs sp model mt oracle).dispatches = [] := by
  unfold AgentWorker.handleOpenWebUIInvoke
  cases oracle <;> exact ⟨rfl, rfl⟩

theorem AgentWorker.handleOllamaInvoke_single (gid : String)
    (msgs : List ConversationMessage) (sp model : String) (mt : Nat)
    (oracle : Nat → Except String OllamaResult)
    (fetchO : String → Except String AuxDoc) :
    (AgentWorker.handleOllamaInvoke gid msgs sp model mt oracle fetchO).calls = 1 ∧
    (AgentWorker.handleOllamaInvoke gid msgs sp model mt oracle fetchO).dispatches =
      [] := by
  unfold AgentWorker.handleOllamaInvoke
  cases h : oracle 1 <;> simp [h]

/-- C3 counterexample: with provider replies that request a `bash` tool call
every round trip, the Anthropic handler performs 25 round trips and 25 tool
dispatches, while the `agent-worker.ts` OpenWebUI handler performs exactly one
provider call and dispatches no tool (the reply's tool calls are ignored), and
the `agent-worker.ts` Ollama handler likewise stops after one call with no
dispatch — the handlers do not exhibit the same externally observed behavior. -/
theorem C3_counterexample :
    (AgentWorker.handleOpenWebUIInvoke "g" [] "sys" "m" 100 (.ok oaToolReply)).calls =
      1 ∧
    (AgentWorker.handleOpenWebUIInvoke "g" [] "sys" "m" 100
        (.ok oaToolReply)).dispatches = [] ∧
    (AgentWorker.handleOllamaInvoke "g" [] "sys" "m" 100
        (fun _ => .ok ollamaToolReply) fetch0).calls = 1 ∧
    (AgentWorker.handleOllamaInvoke "g" [] "sys" "m" 100
        (fun _ => .ok ollamaToolReply) fetch0).dispatches = [] ∧
    (AgentWorker.handleAnthropicInvoke "g" [] "sys" "key" "m" 100
        (fun _ => .ok anthToolReply) env0 fetch0).calls = 25 ∧
    (AgentWorker.handleAnthropicInvoke "g" [] "sys" "key" "m" 100
        (fun _ => .ok anthToolReply) env0 fetch0).dispatches.length = 25 :=
  ⟨rfl, rfl, rfl, rfl, rfl, rfl⟩

/-- C3 (amended): the App.tsx variants of the OpenWebUI and Ollama handlers do
preserve the Anthropic handler's loop behaviour — at most 25 provider calls
for any oracle, the identical fixed cautionary response when all 25 round
trips request tools, and dispatch of every requested tool, in order, via the
Tool Executor — whereas the `agent-worker.ts` variants do not: both perform
exactly one provider call and never dispatch a tool (see the
counterexample). -/
theorem C3_provider_loop_amended (gid sp model : String) (mt : Nat)
    (msgs : List ConversationMessage) (env : ToolEnv)
    (oracleOA : Nat → Except String OAResult)
    (oracleOl : Nat → Except String OllamaResult)
    (hOA : ∀ n, 1 ≤ n → n ≤ 25 → oaToolRound (oracleOA n))
    (hOl : ∀ n, 1 ≤ n → n ≤ 25 → ollamaToolRound (oracleOl n)) :
    (∀ o2 : Nat → Except String OAResult,
       (AppWorker.handleOpenWebUIInvoke gid msgs sp model mt o2 env).calls ≤ 25) ∧
    (∀ o2 : Nat → Except String OllamaResult,
       (AppWorker.handleOllamaInvoke gid msgs sp model mt o2 env).calls ≤ 25) ∧
    respOf (AppWorker.handleOpenWebUIInvoke gid msgs sp model mt oracleOA env).events =
      [Event.response gid AgentWorker.maxIterationsText] ∧
    respOf (AppWorker.handleOllamaInvoke gid msgs sp model mt oracleOl env).events =
      [Event.response gid AgentWorker.maxIterationsText] ∧
    (∀ (u : Option OAUsage) (c : Option String) (tcs : List OAToolCall)
       (msgs2 : List OAMsg), tcs ≠ [] →
       (AppWorker.processOAResult env gid model msgs2 ⟨u, some ⟨c, some tcs⟩⟩).map
           (fun st => st.dispatches) =
         .ok (tcs.map (fun tc => (tc.function.name, tc.function.arguments)))) ∧
    (∀ (c : Option String) (tcs : List OAToolCall) (pec ec : Option Nat)
       (msgs2 : List OllamaMsg), tcs ≠ [] →
       (AppWorker.processOllamaResult env gid model msgs2
           ⟨some ⟨c, some tcs⟩, pec, ec⟩).map (fun st => st.dispatches) =
         .ok (tcs.map (fun tc => (tc.function.name, tc.function.arguments)))) ∧
    (∀ o1 : Except String OAResult,
       (AgentWorker.handleOpenWebUIInvoke gid msgs sp model mt o1).calls = 1 ∧
       (AgentWorker.handleOpenWebUIInvoke gid msgs sp model mt o1).dispatches = []) ∧
    (∀ (oo : Nat → Except String OllamaResult)
       (fO : String → Except String AuxDoc),
       (AgentWorker.handleOllamaInvoke gid msgs sp model mt oo fO).calls = 1 ∧
       (AgentWorker.handleOllamaInvoke gid msgs sp model mt oo fO).dispatches = []) := by
  refine ⟨?_, ?_, ?_, ?_, ?_, ?_, ?_, ?_⟩
  · intro o2
    exact AppWorker.runOpenWebUI_calls_le o2 env gid model 25 0 _
  · intro o2
    exact AppWorker.runOllama_calls_le o2 env gid model 25 0 _
  · exact (AppWorker.runOpenWebUI_alltool oracleOA env gid model 25 0 _
      (fun n h1 h2 => hOA n (by omega) (by omega))).1
  · exact (AppWorker.runOllama_alltool oracleOl env gid model 25 0 _
      (fun n h1 h2 => hOl n (by omega) (by omega))).1
  · intro u c tcs msgs2 hne
    rw [AppWorker.processOAResult_tool_eq env gid model msgs2 u c tcs hne]
    simp [Except.map, AppWorker.execToolCalls_dispatches]
  · intro c tcs pec ec msgs2 hne
    rw [AppWorker.processOllamaResult_tool_eq env gid model msgs2 c tcs pec ec hne]
    simp [Except.map, AppWorker.execToolCalls_dispatches]
  · intro o1
    exact AgentWorker.handleOpenWebUIInvoke_single gid msgs sp model mt o1
  · intro oo fO
    exact AgentWorker.handleOllamaInvoke_single gid msgs sp model mt oo fO

/-- Witness for C3 (amended) with always-tool-requesting oracles. -/
theorem C3_provider_loop_amended_witness :
    (∀ o2 : Nat → Except String OAResult,
       (AppWorker.handleOpenWebUIInvoke "g" [] "sys" "m" 100 o2 env0).calls ≤ 25) ∧
    (∀ o2 : Nat → Except String OllamaResult,
       (AppWorker.handleOllamaInvoke "g" [] "sys" "m" 100 o2 env0).calls ≤ 25) ∧
    respOf (AppWorker.handleOpenWebUIInvoke "g" [] "sys" "m" 100
        (fun _ => .ok oaToolReply) env0).events =
      [Event.response "g" AgentWorker.maxIterationsText] ∧
    respOf (AppWorker.handleOllamaInvoke "g" [] "sys" "m" 100
        (fun _ => .ok ollamaToolReply) env0).events =
      [Event.response "g" AgentWorker.maxIterationsText] ∧
    (∀ (u : Option OAUsage) (c : Option String) (tcs : List OAToolCall)
       (msgs2 : List OAMsg), tcs ≠ [] →
       (AppWorker.processOAResult env0 "g" "m" msgs2 ⟨u, some ⟨c, some tcs⟩⟩).map
           (fun st => st.dispatches) =
         .ok (tcs.map (fun tc => (tc.function.name, tc.function.arguments)))) ∧
    (∀ (c : Option String) (tcs : List OAToolCall) (pec ec : Option Nat)
       (msgs2 : List OllamaMsg), tcs ≠ [] →
       (AppWorker.processOllamaResult env0 "g" "m" msgs2
           ⟨some ⟨c, some tcs⟩, pec, ec⟩).map (fun st => st.dispatches) =
         .ok (tcs.map (fun tc => (tc.function.name, tc.function.arguments)))) ∧
    (∀ o1 : Except String OAResult,
       (AgentWorker.handleOpenWebUIInvoke "g" [] "sys" "m" 100 o1).calls = 1 ∧
       (AgentWorker.handleOpenWebUIInvoke "g" [] "sys" "m" 100 o1).dispatches = []) ∧
    (∀ (oo : Nat → Except String OllamaResult)
       (fO : String → Except String AuxDoc),
       (AgentWorker.handleOllamaInvoke "g" [] "sys" "m" 100 oo fO).calls = 1 ∧
       (AgentWorker.handleOllamaInvoke "g" [] "sys" "m" 100 oo fO).dispatches = []) :=
  C3_provider_loop_amended "g" "sys" "m" 100 [] env0
    (fun _ => .ok oaToolReply) (fun _ => .ok ollamaToolReply)
    (fun n _ _ =>
      ⟨none, some "", [⟨"call_1", ⟨"bash", inputCmd⟩⟩], rfl, by decide⟩)
    (fun n _ _ =>
      ⟨some "", [⟨"call_1", ⟨"bash", inputCmd⟩⟩], none, none, rfl, by decide⟩)
